import Mathlib

/-!
# Gateway credential store adapter (`auth/redis_auth.go`)

A shallow embedding of the Redis-backed authentication adapter: the credential
record of a gateway lives in a hash of the key-value store under
`prefix + gatewayID`, with the fields `token`, `key` and `token_expires`.

The embedding has three layers:

* the values of Go's `time` package that the adapter uses (`IsZero`, `After`,
  `Format(time.RFC3339)`, `time.Parse(time.RFC3339, ·)`);
* the hash commands of the store client (`HMSet`, `HSet`, `HGet`, `HGetAll`,
  `Del`), over an explicit store state, each with an explicit fault input;
* the adapter itself (`NewRedis`, `SetToken`, `SetKey`, `ValidateKey`, `Delete`,
  `GetToken`, `SetExchanger`), translated statement by statement.
-/

set_option autoImplicit false

namespace Auth

/-! ## Errors -/

/-- Modelled from the spec: the error values the adapter distinguishes. `Nil` is
the store client's "field or key absent" sentinel (`redis.Nil`);
`ErrGatewayNotFound` and `ErrGatewayNoValidToken` are the package's two domain
errors, declared outside `redis_auth.go`; `New text` is `errors.New(text)` and
also stands for every other error value (store faults, exchanger errors). -/
inductive Err where
  | Nil
  | ErrGatewayNotFound
  | ErrGatewayNoValidToken
  | New (text : String)
  deriving DecidableEq, Repr

/-! ## Time -/

/-- A `time.Time` value of Go's standard library: an instant with nanosecond
precision, counted from January 1, year 1, 00:00:00 UTC, together with the
offset (seconds east of UTC) of its location, which only formatting uses. -/
structure Time where
  sec : Int
  nsec : Nat
  offset : Int
  deriving DecidableEq, Repr

namespace Time

/-- The zero value `time.Time{}`: January 1, year 1, 00:00:00 UTC. -/
def zero : Time := ⟨0, 0, 0⟩

/-- The method `t.IsZero()`: the instant is January 1, year 1, 00:00:00 UTC. -/
def IsZero (t : Time) : Bool := t.sec == 0 && t.nsec == 0

/-- The method `t.After(u)`: the instant `t` is strictly after the instant `u`. -/
def After (t u : Time) : Bool :=
  decide (t.sec > u.sec) || (t.sec == u.sec && decide (t.nsec > u.nsec))

/-- Leap years of the proleptic Gregorian calendar. -/
def isLeap (year : Int) : Bool :=
  year % 4 == 0 && (year % 100 != 0 || year % 400 == 0)

/-- Number of days of month `month` (1..12) of `year`. -/
def daysIn (month : Nat) (year : Int) : Nat :=
  if month == 2 then (if isLeap year then 29 else 28)
  else if month == 4 || month == 6 || month == 9 || month == 11 then 30
  else 31

/-- Days from January 1, year 1 to the given civil date. -/
def daysFromCivil (year : Int) (month day : Nat) : Int :=
  let y : Int := if month ≤ 2 then year - 1 else year
  let era : Int := y / 400
  let yoe : Int := y - era * 400
  let mp : Int := if month > 2 then (month : Int) - 3 else (month : Int) + 9
  let doy : Int := (153 * mp + 2) / 5 + (day : Int) - 1
  let doe : Int := yoe * 365 + yoe / 4 - yoe / 100 + doy
  era * 146097 + doe - 306

/-- The civil date (year, month, day) of a day counted from January 1, year 1. -/
def civilFromDays (days : Int) : Int × Nat × Nat :=
  let z : Int := days + 306
  let era : Int := z / 146097
  let doe : Int := z - era * 146097
  let yoe : Int := (doe - doe / 1460 + doe / 36524 - doe / 146096) / 365
  let doy : Int := doe - (365 * yoe + yoe / 4 - yoe / 100)
  let mp : Int := (5 * doy + 2) / 153
  let d : Int := doy - (153 * mp + 2) / 5 + 1
  let m : Int := if mp < 10 then mp + 3 else mp - 9
  let y : Int := yoe + era * 400
  (if m ≤ 2 then y + 1 else y, m.toNat, d.toNat)

/-- The function `time.Date(year, month, day, hour, min, sec, nsec, time.UTC)`
for fields already in range. -/
def Date (year : Int) (month day hour min sec nsec : Nat) : Time :=
  ⟨daysFromCivil year month day * 86400 + (hour * 3600 + min * 60 + sec : Nat), nsec, 0⟩

/-- Decimal value of a digit character. -/
def digitVal (c : Char) : Nat := c.toNat - '0'.toNat

/-- The helper `getnum(s, fixed)` of the layout parser: a one- or two-digit
number at the head of the input; with `fixed`, exactly two digits are required. -/
def getnum (s : List Char) (fixed : Bool) : Option (Nat × List Char) :=
  match s with
  | [] => none
  | [c] => if c.isDigit && !fixed then some (digitVal c, []) else none
  | c :: d :: rest =>
    if !c.isDigit then none
    else if !d.isDigit then (if fixed then none else some (digitVal c, d :: rest))
    else some (digitVal c * 10 + digitVal d, rest)

/-- Consumes one literal character of the layout. -/
def skipChar (c : Char) (s : List Char) : Option (List Char) :=
  match s with
  | [] => none
  | x :: rest => if x == c then some rest else none

/-- The four-digit year of the layout element `2006`. -/
def parseYear (s : List Char) : Option (Nat × List Char) :=
  match s with
  | a :: b :: c :: d :: rest =>
    if a.isDigit && b.isDigit && c.isDigit && d.isDigit then
      some (((digitVal a * 10 + digitVal b) * 10 + digitVal c) * 10 + digitVal d, rest)
    else none
  | _ => none

/-- Value of the first (at most nine) digits of a fraction, scaled to nanoseconds. -/
def nanosOfDigits (ds : List Char) : Nat :=
  let first := ds.take 9
  first.foldl (fun n c => n * 10 + digitVal c) 0 * 10 ^ (9 - first.length)

/-- A fractional second in the input although the layout has none: a period or
comma followed by at least one digit; all the digits are consumed. -/
def parseFraction (s : List Char) : Nat × List Char :=
  match s with
  | p :: d :: rest =>
    if (p == '.' || p == ',') && d.isDigit then
      (nanosOfDigits ((d :: rest).takeWhile Char.isDigit), (d :: rest).dropWhile Char.isDigit)
    else (0, s)
  | _ => (0, s)

/-- The layout element `Z07:00`: either `Z` (UTC) or a signed `hh:mm` offset,
returned in seconds east of UTC. -/
def parseZone (s : List Char) : Option (Int × List Char) :=
  match s with
  | 'Z' :: rest => some (0, rest)
  | sign :: h1 :: h2 :: colon :: m1 :: m2 :: rest =>
    if colon != ':' then none
    else match getnum [h1, h2] true, getnum [m1, m2] true with
      | some (hr, _), some (mm, _) =>
        if hr > 24 || mm > 60 then none
        else if sign == '+' then some ((((hr * 60 + mm) * 60 : Nat) : Int), rest)
        else if sign == '-' then some (-(((hr * 60 + mm) * 60 : Nat) : Int), rest)
        else none
      | _, _ => none
  | _ => none

/-- The date `2006-01-02` of the layout: year, month (1..12) and a two-digit day,
which is checked against the month once the whole input is read. -/
def parseDate (s : List Char) : Option (Nat × Nat × Nat × List Char) :=
  (parseYear s).bind fun (year, s) =>
  (skipChar '-' s).bind fun s =>
  (getnum s true).bind fun (month, s) =>
  if month == 0 || 12 < month then none else
  (skipChar '-' s).bind fun s =>
  (getnum s true).bind fun (day, s) =>
  some (year, month, day, s)

/-- The clock `15:04:05` of the layout, with the fractional second the parser
accepts after the seconds: hour (one or two digits, below 24), minute, second
and nanoseconds. -/
def parseClock (s : List Char) : Option (Nat × Nat × Nat × Nat × List Char) :=
  (getnum s false).bind fun (hour, s) =>
  if 24 ≤ hour then none else
  (skipChar ':' s).bind fun s =>
  (getnum s true).bind fun (min, s) =>
  if 60 ≤ min then none else
  (skipChar ':' s).bind fun s =>
  (getnum s true).bind fun (sec, s) =>
  if 60 ≤ sec then none else
  let (nsec, s) := parseFraction s
  some (hour, min, sec, nsec, s)

/-- The standard library's `time.Parse(time.RFC3339, value)`, that is the layout
`2006-01-02T15:04:05Z07:00`; `none` stands for a non-nil parse error. -/
def Parse (value : String) : Option Time :=
  (parseDate value.data).bind fun (year, month, day, s) =>
  (skipChar 'T' s).bind fun s =>
  (parseClock s).bind fun (hour, min, sec, nsec, s) =>
  (parseZone s).bind fun (zoneOffset, s) =>
  if !s.isEmpty then none
  else if day < 1 || day > daysIn month year then none
  else
    let t := Date year month day hour min sec nsec
    some ⟨t.sec - zoneOffset, t.nsec, zoneOffset⟩

/-- The formatter's `appendInt(b, x, width)`: decimal digits, zero-padded to
`width`, with a leading minus sign for negative numbers. -/
def appendInt (x : Int) (width : Nat) : List Char :=
  let ds := Nat.toDigits 10 x.natAbs
  let padded := List.replicate (width - ds.length) '0' ++ ds
  if x < 0 then '-' :: padded else padded

/-- The layout element `Z07:00` on output. -/
def formatZone (offset : Int) : List Char :=
  if offset == 0 then ['Z']
  else
    let zone : Int := Int.tdiv offset 60
    let sign : Char := if zone < 0 then '-' else '+'
    let z : Nat := zone.natAbs
    sign :: (appendInt (z / 60 : Nat) 2 ++ ':' :: appendInt (z % 60 : Nat) 2)

/-- The constant `internalToAbsolute` of the standard library: the seconds from the
zero of its calendar computations, January 1 of the year -292277022399, to
January 1 of the year 1. -/
def internalToAbsolute : Int := 9223371966579724800

/-- The method `t.abs()`, counted from January 1, year 1: the civil time of `t` in
its location, in seconds. The library computes
`uint64(sec + offset + internalToAbsolute)` in 64 bits, so the sum wraps
modulo `2^64`. The field `sec` is an `int64` there; a `sec` outside 64 bits is
not a value of `time.Time` and is taken as it is. -/
def localSeconds (t : Time) : Int :=
  if -9223372036854775808 ≤ t.sec ∧ t.sec < 9223372036854775808 then
    (t.sec + t.offset + internalToAbsolute) % 18446744073709551616 - internalToAbsolute
  else t.sec + t.offset

/-- The standard library's `t.Format(time.RFC3339)`: the civil date and clock of
the instant in the location of `t`, to the whole second, and the offset. -/
def Format (t : Time) : String :=
  let abs : Int := localSeconds t
  let days : Int := abs / 86400
  let rem : Int := abs % 86400
  let (year, month, day) := civilFromDays days
  String.mk
    (appendInt year 4 ++ '-' :: appendInt month 2 ++ '-' :: appendInt day 2 ++ 'T' ::
      appendInt (rem / 3600) 2 ++ ':' :: appendInt (rem % 3600 / 60) 2 ++ ':' ::
      appendInt (rem % 60) 2 ++ formatZone t.offset)

/-- The method `t.Year()`: the year of the instant in the location of `t`. -/
def Year (t : Time) : Int := (civilFromDays (localSeconds t / 86400)).1

/-- The method `t.Truncate(time.Second)`: the instant rounded down to the whole
second. -/
def truncSecond (t : Time) : Time := ⟨t.sec, 0, t.offset⟩

end Time

/-! ## The key-value store -/

/-- A hash of the store, also the Go type `map[string]string`: field name to value. -/
abbrev Hash := List (String × String)

/-- Assignment `m[field] = value`. -/
def Hash.set (h : Hash) (field value : String) : Hash :=
  (field, value) :: h.filter (fun p => p.1 != field)

/-- The data held by the store: the hash stored under each key, if any. -/
abbrev Store := String → Option Hash

/-- The store with the hash under `key` replaced. -/
def Store.put (s : Store) (key : String) (h : Option Hash) : Store :=
  fun k => if k = key then h else s k

/-- Modelled from the spec: `HashMultiSet(key, fieldMap) → error`, the client's
`HMSet(key, fields).Err()`. With a fault the command fails with that error and
has no effect; otherwise every field of `fields` is written to the hash under
`key`, which is created when absent. -/
def HMSet (s : Store) (fault : Option Err) (key : String) (fields : Hash) :
    Store × Option Err :=
  match fault with
  | some e => (s, some e)
  | none =>
    (s.put key (some (fields.foldl (fun h p => h.set p.1 p.2) ((s key).getD []))), none)

/-- Modelled from the spec: `HashFieldSet(key, field, value) → error`, the
client's `HSet(key, field, value).Err()`. -/
def HSet (s : Store) (fault : Option Err) (key field value : String) : Store × Option Err :=
  match fault with
  | some e => (s, some e)
  | none => (s.put key (some (((s key).getD []).set field value)), none)

/-- Modelled from the spec: `HashFieldGet(key, field) → (value, error)`, the
client's `HGet(key, field).Result()`: an absent key or field is reported by the
sentinel `Err.Nil`; a failed command yields the empty value and its error. -/
def HGet (s : Store) (fault : Option Err) (key field : String) : String × Option Err :=
  match fault with
  | some e => ("", some e)
  | none =>
    match s key with
    | none => ("", some Err.Nil)
    | some h =>
      match h.lookup field with
      | none => ("", some Err.Nil)
      | some v => (v, none)

/-- Modelled from the spec: `HashGetAll(key) → (fieldMap, error)`, the client's
`HGetAll(key).Result()`: an absent key reads as the map without fields; a failed
command yields no fields and its error. -/
def HGetAll (s : Store) (fault : Option Err) (key : String) : Hash × Option Err :=
  match fault with
  | some e => ([], some e)
  | none => ((s key).getD [], none)

/-- Modelled from the spec: `Delete(key) → error`, the client's `Del(key).Err()`. -/
def Del (s : Store) (fault : Option Err) (key : String) : Store × Option Err :=
  match fault with
  | some e => (s, some e)
  | none => (s.put key none, none)

/-! ## The adapter -/

/-- Modelled from the spec: the capability `Exchange(gatewayID, key) →
(token, expires, error)`; the interface is declared outside `redis_auth.go`. -/
abbrev Exchanger := String → String → String × Time × Option Err

/-- The type `Redis` implements the authentication interface with a Redis backend. The
client handle is represented by the store state that the operations take and
return; `Exchanger` is `none` for the nil interface value. -/
structure Redis where
  pfx : String
  Exchanger : Option Exchanger

/-- The variable `DefaultRedisPrefix` is used as prefix when no prefix is given. -/
def DefaultRedisPrefix : String := "gateway:"

/-- Field names of a credential record. -/
structure RedisKey where
  token : String
  key : String
  tokenExpires : String

/-- The variable `redisKey`. -/
def redisKey : RedisKey :=
  { token := "token", key := "key", tokenExpires := "token_expires" }

/-- The constructor `NewRedis(client, prefix)`: an empty prefix is replaced by the
default one and no exchanger is registered. The client is the store state that the
operations take. -/
def NewRedis (pfx : String) : Redis :=
  let pfx := if pfx == "" then DefaultRedisPrefix else pfx
  { pfx := pfx, Exchanger := none }

/-- The method `SetToken` sets the access token for a gateway. -/
def Redis.SetToken (r : Redis) (s : Store) (fault : Option Err) (gatewayID token : String)
    (expires : Time) : Store × Option Err :=
  let data : Hash := [(redisKey.token, token)]
  let data : Hash :=
    if expires.IsZero then data.set redisKey.tokenExpires ""
    else data.set redisKey.tokenExpires expires.Format
  HMSet s fault (r.pfx ++ gatewayID) data

/-- The method `SetKey` sets the access key for a gateway. -/
def Redis.SetKey (r : Redis) (s : Store) (fault : Option Err) (gatewayID key : String) :
    Store × Option Err :=
  HSet s fault (r.pfx ++ gatewayID) redisKey.key key

/-- The method `ValidateKey` validates the access key for a gateway; the store is
returned as the command left it. -/
def Redis.ValidateKey (r : Redis) (s : Store) (fault : Option Err) (gatewayID key : String) :
    Store × Option Err :=
  let (res, err) := HGet s fault (r.pfx ++ gatewayID) redisKey.key
  if err == some Err.Nil || res.length == 0 || key == res then (s, none)
  else (s, some (Err.New "Invalid Key"))

/-- The method `Delete` removes gateway key and token. -/
def Redis.Delete (r : Redis) (s : Store) (fault : Option Err) (gatewayID : String) :
    Store × Option Err :=
  Del s fault (r.pfx ++ gatewayID)

/-- What a call of `GetToken` returns and does: the returned pair
`(token, err)`, the store afterwards, and the invocations `Exchange(gatewayID, key)`
it made, in order. -/
structure TokenResult where
  token : String
  err : Option Err
  store : Store
  exchanges : List (String × String)

/-- The method `GetToken` returns an access token for the gateway. `now` is the value of
`time.Now()`; `readFault` and `writeFault` are the faults of the `HGetAll`
command and of the `HMSet` command issued by `SetToken`. -/
def Redis.GetToken (r : Redis) (s : Store) (now : Time) (readFault writeFault : Option Err)
    (gatewayID : String) : TokenResult := Id.run do
  let (res, err) := HGetAll s readFault (r.pfx ++ gatewayID)
  if err == some Err.Nil || res.length == 0 then
    return ⟨"", some Err.ErrGatewayNotFound, s, []⟩
  if err != none then
    return ⟨"", err, s, []⟩
  let mut expires : Time := Time.zero
  if let some expiresStr := res.lookup redisKey.tokenExpires then
    if expiresStr != "" then
      if let some rExpires := Time.Parse expiresStr then
        expires := rExpires
  if let some token := res.lookup redisKey.token then
    if token != "" then
      if expires.IsZero || expires.After now then
        return ⟨token, none, s, []⟩
  if let some key := res.lookup redisKey.key then
    if key != "" then
      if let some exchange := r.Exchanger then
        let (token, newExpires, err) := exchange gatewayID key
        if err != none then
          return ⟨"", err, s, [(gatewayID, key)]⟩
        let (s, _) := r.SetToken s writeFault gatewayID token newExpires
        return ⟨token, none, s, [(gatewayID, key)]⟩
  return ⟨"", some Err.ErrGatewayNoValidToken, s, []⟩

/-- The method `SetExchanger` sets the component that will exchange access keys for
access tokens. -/
def Redis.SetExchanger (r : Redis) (e : Option Auth.Exchanger) : Redis :=
  { r with Exchanger := e }

/-! ## Sample data -/

/-- A current time: 2025-11-29T08:00:00Z. -/
def sampleNow : Time := ⟨63900000000, 0, 0⟩

/-- An exchanger that trades the key `K` for `newtok`, valid until
2030-01-01T00:00:00Z, and refuses every other key. -/
def sampleExchanger : Exchanger := fun _ key =>
  if key == "K" then ("newtok", ⟨64029052800, 0, 0⟩, none)
  else ("", Time.zero, some (Err.New "exchange refused"))

/-- An adapter with the default prefix and the sample exchanger registered. -/
def sampleRedis : Redis := (NewRedis "").SetExchanger (some sampleExchanger)

/-- An exchanger whose token expires at 2030-01-01T00:00:00Z, given in a zone 30
seconds west of UTC. -/
def westZoneExchanger : Exchanger := fun _ _ => ("newtok", ⟨64029052800, 0, -30⟩, none)

/-- A store holding the record `h` for the gateway `gw1` and nothing else. -/
def sampleStore (h : Hash) : Store :=
  fun k => if k = "gateway:gw1" then some h else none

/-! ## Conditions on a record -/

/-- The stored expiry of a record has passed at `now`: the `token_expires` field
parses to an instant other than the zero time that is not strictly after `now`. -/
def Expired (h : Hash) (now : Time) : Prop :=
  ∃ str t, h.lookup "token_expires" = some str ∧ Time.Parse str = some t ∧
    t.IsZero = false ∧ t.After now = false

/-- The record has no usable token at `now`: the `token` field is absent or
empty, or the stored expiry has passed. -/
def NoUsableToken (h : Hash) (now : Time) : Prop :=
  h.lookup "token" = none ∨ h.lookup "token" = some "" ∨ Expired h now

/-! ## The steps of `GetToken` -/

/-- The value of a field of the record stored under `key`, when the record and
the field exist. -/
def Store.field (s : Store) (key field : String) : Option String :=
  (s key).bind fun h => h.lookup field

/-- Lines 85 to 90 of `GetToken`: the expiry read from a record, which is the
zero time when the `token_expires` field is absent, empty or does not parse. -/
def storedExpiry (res : Hash) : Time :=
  match res.lookup redisKey.tokenExpires with
  | some expiresStr =>
    if expiresStr != "" then
      match Time.Parse expiresStr with
      | some rExpires => rExpires
      | none => Time.zero
    else Time.zero
  | none => Time.zero

/-- Lines 91 to 95 of `GetToken`: the stored token, when it is served. -/
def storedToken (res : Hash) (now : Time) : Option String :=
  match res.lookup redisKey.token with
  | some token =>
    if token != "" && ((storedExpiry res).IsZero || (storedExpiry res).After now) then some token
    else none
  | none => none

/-- Lines 96 to 106 of `GetToken`: the exchange of the stored key, reached when
no stored token is served. -/
def exchangeStep (r : Redis) (s : Store) (writeFault : Option Err) (gatewayID : String)
    (res : Hash) : TokenResult :=
  match res.lookup redisKey.key, r.Exchanger with
  | some key, some exchange =>
    if key = "" then ⟨"", some Err.ErrGatewayNoValidToken, s, []⟩
    else if (exchange gatewayID key).2.2 = none then
      ⟨(exchange gatewayID key).1, none,
        (r.SetToken s writeFault gatewayID (exchange gatewayID key).1
          (exchange gatewayID key).2.1).1, [(gatewayID, key)]⟩
    else ⟨"", (exchange gatewayID key).2.2, s, [(gatewayID, key)]⟩
  | _, _ => ⟨"", some Err.ErrGatewayNoValidToken, s, []⟩

/-- The stored token of a record is fresh at `now`: the `token` field is `T`,
not empty, and the `token_expires` field is absent, empty, or parses to an
instant strictly after `now`. -/
def Fresh (h : Hash) (now : Time) (T : String) : Prop :=
  h.lookup "token" = some T ∧ T ≠ "" ∧
    (h.lookup "token_expires" = none ∨ h.lookup "token_expires" = some "" ∨
      ∃ str t, h.lookup "token_expires" = some str ∧ Time.Parse str = some t ∧
        t.After now = true)

/-! ## Auxiliary lemmas -/

theorem length_beq_zero_of_lookup {h : Hash} {f v : String} (hf : h.lookup f = some v) :
    (h.length == 0) = false := by
  cases h with
  | nil => simp at hf
  | cons p t => simp

theorem length_beq_zero_of_ne_nil {h : Hash} (hne : h ≠ []) : (h.length == 0) = false := by
  cases h with
  | nil => exact absurd rfl hne
  | cons p t => simp

theorem string_length_eq_zero_iff (x : String) : x.length = 0 ↔ x = "" := by
  constructor
  · intro hx
    have hd : x.data = [] := List.length_eq_zero.mp hx
    exact String.ext hd
  · intro hx
    subst hx
    rfl

theorem parse_empty : Time.Parse "" = none := by decide

theorem lookup_filter_ne (h : Hash) (f g : String) (hfg : g ≠ f) :
    (h.filter (fun p => p.1 != f)).lookup g = h.lookup g := by
  induction h with
  | nil => rfl
  | cons p t ih =>
    by_cases hp : p.1 = f
    · have hg : (g == p.1) = false := by
        rw [hp]; exact beq_false_of_ne hfg
      have hpf : (p.1 != f) = false := by simp [hp]
      obtain ⟨a, b⟩ := p
      simp only [List.filter, hpf, List.lookup, hg, ih]
    · have hpf : (p.1 != f) = true := by simpa using hp
      obtain ⟨a, b⟩ := p
      simp only [List.filter, hpf, List.lookup]
      cases hga : g == a <;> simp [ih]

theorem lookup_set_self (h : Hash) (f v : String) : (h.set f v).lookup f = some v := by
  simp [Hash.set, List.lookup]

theorem lookup_set_ne (h : Hash) (f g v : String) (hfg : g ≠ f) :
    (h.set f v).lookup g = h.lookup g := by
  have hg : (g == f) = false := beq_false_of_ne hfg
  simp [Hash.set, List.lookup, hg, lookup_filter_ne h f g hfg]

/-- The record of a gateway after a successful `SetToken`. -/
theorem setToken_record (r : Redis) (s : Store) (gatewayID token : String) (expires : Time) :
    (r.SetToken s none gatewayID token expires).1 (r.pfx ++ gatewayID) =
      some ((((s (r.pfx ++ gatewayID)).getD []).set "token_expires"
        (if expires.IsZero then "" else expires.Format)).set "token" token) := by
  cases hz : expires.IsZero <;>
    simp [Redis.SetToken, HMSet, Store.put, Hash.set, redisKey, hz]

/-- With a record that has fields but no usable token, `GetToken` is decided by
the exchange step alone. -/
theorem getToken_exchange_step (r : Redis) (s : Store) (now : Time) (writeFault : Option Err)
    (gatewayID : String) (h : Hash)
    (hrec : s (r.pfx ++ gatewayID) = some h) (hne : h ≠ [])
    (hno : NoUsableToken h now) :
    r.GetToken s now none writeFault gatewayID =
      match h.lookup "key", r.Exchanger with
      | some key, some exchange =>
        if key = "" then ⟨"", some Err.ErrGatewayNoValidToken, s, []⟩
        else if (exchange gatewayID key).2.2 = none then
          ⟨(exchange gatewayID key).1, none,
            (r.SetToken s writeFault gatewayID (exchange gatewayID key).1
              (exchange gatewayID key).2.1).1, [(gatewayID, key)]⟩
        else ⟨"", (exchange gatewayID key).2.2, s, [(gatewayID, key)]⟩
      | _, _ => ⟨"", some Err.ErrGatewayNoValidToken, s, []⟩ := by
  have hlen := length_beq_zero_of_ne_nil hne
  have hpe := parse_empty
  unfold Redis.GetToken
  simp only [Id.run, HGetAll, hrec, Option.getD, redisKey, hlen]
  rcases hno with ht | ht | ⟨str, t, he, hp, hz, ha⟩
  · rcases hE : List.lookup "token_expires" h with _ | str <;>
    rcases hK : List.lookup "key" h with _ | key <;>
    rcases hX : r.Exchanger with _ | ex <;>
    simp [ht] <;> repeat' (first | rfl | split | (intro _))
  · rcases hE : List.lookup "token_expires" h with _ | str <;>
    rcases hK : List.lookup "key" h with _ | key <;>
    rcases hX : r.Exchanger with _ | ex <;>
    simp [ht] <;> repeat' (first | rfl | split | (intro _))
  · have hs : str ≠ "" := by
      intro hs
      rw [hs, hpe] at hp
      exact Option.noConfusion hp
    rcases hT : List.lookup "token" h with _ | tok <;>
    rcases hK : List.lookup "key" h with _ | key <;>
    rcases hX : r.Exchanger with _ | ex <;>
    simp [he, hs, hp, hz, ha]

/-! ## Claims -/

/-- C1. A record with a non-empty `token` field `T` whose `token_expires` field
is absent, empty, or parses to an instant strictly after the current time:
`GetToken` returns `(T, nil)`, whatever the key and the exchanger, invokes no
exchange and leaves the store as it was. -/
theorem getToken_fresh_token (r : Redis) (s : Store) (now : Time) (writeFault : Option Err)
    (gatewayID : String) (h : Hash) (T : String)
    (hrec : s (r.pfx ++ gatewayID) = some h)
    (htok : h.lookup "token" = some T) (hT : T ≠ "")
    (hexp : h.lookup "token_expires" = none ∨ h.lookup "token_expires" = some "" ∨
      ∃ str t, h.lookup "token_expires" = some str ∧ Time.Parse str = some t ∧
        t.After now = true) :
    r.GetToken s now none writeFault gatewayID = ⟨T, none, s, []⟩ := by
  have hlen := length_beq_zero_of_lookup htok
  unfold Redis.GetToken
  simp only [Id.run, HGetAll, hrec, Option.getD, redisKey, hlen]
  rcases hexp with he | he | ⟨str, t, he, hp, ha⟩
  · simp [htok, hT, he, Time.zero, Time.IsZero]
  · simp [htok, hT, he, Time.zero, Time.IsZero]
  · by_cases hs : str = ""
    · simp [htok, hT, he, hs, Time.zero, Time.IsZero]
    · simp [htok, hT, he, hs, hp, ha]

/-- A concrete instance: a token valid until 2030, read in 2025, with a key and an
exchanger present. -/
theorem getToken_fresh_token_witness :
    sampleRedis.GetToken
        (sampleStore [("token", "tok"), ("token_expires", "2030-01-01T00:00:00Z"), ("key", "K")])
        sampleNow none none "gw1" =
      ⟨"tok", none,
        sampleStore [("token", "tok"), ("token_expires", "2030-01-01T00:00:00Z"), ("key", "K")],
        []⟩ :=
  getToken_fresh_token sampleRedis _ sampleNow none "gw1"
    [("token", "tok"), ("token_expires", "2030-01-01T00:00:00Z"), ("key", "K")] "tok"
    (by decide) (by decide) (by decide)
    (Or.inr (Or.inr ⟨"2030-01-01T00:00:00Z", ⟨64029052800, 0, 0⟩,
      by decide, by decide, by decide⟩))

/-- C3. When `GetToken` reaches the exchange step (no usable token, a non-empty
key `K`, an exchanger registered) and the exchanger answers with an error `e`:
`GetToken` returns `("", e)`, that very error, and the store is as it was. -/
theorem getToken_propagates_exchange_error (r : Redis) (s : Store) (now : Time)
    (writeFault : Option Err) (gatewayID : String) (h : Hash) (K tok : String) (exp : Time)
    (e : Err) (exchange : Exchanger)
    (hrec : s (r.pfx ++ gatewayID) = some h)
    (hno : NoUsableToken h now)
    (hkey : h.lookup "key" = some K) (hK : K ≠ "")
    (hreg : r.Exchanger = some exchange)
    (hex : exchange gatewayID K = (tok, exp, some e)) :
    r.GetToken s now none writeFault gatewayID = ⟨"", some e, s, [(gatewayID, K)]⟩ := by
  have hne : h ≠ [] := by
    intro hnil
    rw [hnil] at hkey
    exact Option.noConfusion hkey
  rw [getToken_exchange_step r s now writeFault gatewayID h hrec hne hno]
  simp [hkey, hreg, hex, hK]

/-- A concrete instance: an empty token and a key that the sample exchanger refuses. -/
theorem getToken_propagates_exchange_error_witness :
    sampleRedis.GetToken
        (sampleStore [("token", ""), ("token_expires", ""), ("key", "K2")])
        sampleNow none none "gw1" =
      ⟨"", some (Err.New "exchange refused"),
        sampleStore [("token", ""), ("token_expires", ""), ("key", "K2")], [("gw1", "K2")]⟩ :=
  getToken_propagates_exchange_error sampleRedis _ sampleNow none "gw1"
    [("token", ""), ("token_expires", ""), ("key", "K2")] "K2" "" Time.zero
    (Err.New "exchange refused") sampleExchanger
    (by decide) (Or.inr (Or.inl (by decide))) (by decide) (by decide) rfl (by decide)

/-- C4, amended. A record with at least one field and no usable token (the token
absent, empty, or with a stored expiry other than the zero time that is not
strictly after now), and either no non-empty `key` field or no exchanger
registered: `GetToken` returns `("", ErrGatewayNoValidToken)`, invokes no
exchange and leaves the store as it was. -/
theorem getToken_no_valid_token (r : Redis) (s : Store) (now : Time)
    (writeFault : Option Err) (gatewayID : String) (h : Hash)
    (hrec : s (r.pfx ++ gatewayID) = some h) (hne : h ≠ [])
    (hno : NoUsableToken h now)
    (hkx : h.lookup "key" = none ∨ h.lookup "key" = some "" ∨ r.Exchanger = none) :
    r.GetToken s now none writeFault gatewayID =
      ⟨"", some Err.ErrGatewayNoValidToken, s, []⟩ := by
  rw [getToken_exchange_step r s now writeFault gatewayID h hrec hne hno]
  rcases hkx with hk | hk | hx
  · simp [hk]
  · cases hx : r.Exchanger <;> simp [hk]
  · cases hk : h.lookup "key" <;> simp [hx]

/-- A concrete instance: a record with only a token that expired in 2020, no key,
and an exchanger registered. -/
theorem getToken_no_valid_token_witness :
    sampleRedis.GetToken
        (sampleStore [("token", "tok"), ("token_expires", "2020-01-01T00:00:00Z")])
        sampleNow none none "gw1" =
      ⟨"", some Err.ErrGatewayNoValidToken,
        sampleStore [("token", "tok"), ("token_expires", "2020-01-01T00:00:00Z")], []⟩ :=
  getToken_no_valid_token sampleRedis _ sampleNow none "gw1"
    [("token", "tok"), ("token_expires", "2020-01-01T00:00:00Z")]
    (by decide) (by decide)
    (Or.inr (Or.inr ⟨"2020-01-01T00:00:00Z", ⟨63713433600, 0, 0⟩,
      by decide, by decide, by decide, by decide⟩))
    (Or.inl (by decide))

/-- C4 as stated fails: the record `token = "tok"`,
`token_expires = "0001-01-01T00:00:00Z"` has a field, an expiry that is not
strictly after now, no key, and no exchanger is registered; yet `GetToken`
returns `("tok", nil)`, since the stored expiry is the zero time. -/
theorem getToken_zero_time_expiry_served :
    sampleStore [("token", "tok"), ("token_expires", "0001-01-01T00:00:00Z")]
        ((NewRedis "").pfx ++ "gw1") =
      some [("token", "tok"), ("token_expires", "0001-01-01T00:00:00Z")] ∧
    List.lookup "token_expires" [("token", "tok"), ("token_expires", "0001-01-01T00:00:00Z")] =
      some "0001-01-01T00:00:00Z" ∧
    (∃ t, Time.Parse "0001-01-01T00:00:00Z" = some t ∧ t.After sampleNow = false) ∧
    List.lookup "key" [("token", "tok"), ("token_expires", "0001-01-01T00:00:00Z")] = none ∧
    (NewRedis "").Exchanger = none ∧
    ((NewRedis "").GetToken
        (sampleStore [("token", "tok"), ("token_expires", "0001-01-01T00:00:00Z")])
        sampleNow none none "gw1").token = "tok" ∧
    ((NewRedis "").GetToken
        (sampleStore [("token", "tok"), ("token_expires", "0001-01-01T00:00:00Z")])
        sampleNow none none "gw1").err = none :=
  ⟨by decide, by decide, ⟨Time.zero, by decide, by decide⟩, by decide, rfl, by decide, by decide⟩

/-- C5. A gateway whose record is absent from the store or has no fields:
`GetToken` returns `("", ErrGatewayNotFound)`, with or without an exchanger,
and invokes no exchange. -/
theorem getToken_not_found (r : Redis) (s : Store) (now : Time) (writeFault : Option Err)
    (gatewayID : String)
    (hrec : s (r.pfx ++ gatewayID) = none ∨ s (r.pfx ++ gatewayID) = some []) :
    r.GetToken s now none writeFault gatewayID =
      ⟨"", some Err.ErrGatewayNotFound, s, []⟩ := by
  rcases hrec with hrec | hrec <;>
    simp [Redis.GetToken, Id.run, HGetAll, hrec]

/-- A concrete instance: the gateway `gw2` has no record. -/
theorem getToken_not_found_witness :
    sampleRedis.GetToken (sampleStore [("token", "tok"), ("key", "K")]) sampleNow none none "gw2" =
      ⟨"", some Err.ErrGatewayNotFound, sampleStore [("token", "tok"), ("key", "K")], []⟩ :=
  getToken_not_found sampleRedis _ sampleNow none "gw2" (Or.inl (by decide))

/-- C6, the code at the failing input. A read of the record that fails with a
store fault `e`, the store returning no fields: `GetToken` returns
`ErrGatewayNotFound` in place of `e`, because the test for a record without
fields comes before the test for an error. -/
theorem getToken_store_fault_reported_not_found (r : Redis) (s : Store) (now : Time)
    (e : Err) (writeFault : Option Err) (gatewayID : String) :
    r.GetToken s now (some e) writeFault gatewayID =
      ⟨"", some Err.ErrGatewayNotFound, s, []⟩ := by
  simp [Redis.GetToken, Id.run, HGetAll]

/-- C7, the code at the failing input. A read of the `key` field that fails with
a store fault `e`: `ValidateKey` returns nil for every supplied key, the error
is dropped and the key accepted. -/
theorem validateKey_store_fault_accepted (r : Redis) (s : Store) (e : Err)
    (gatewayID key : String) :
    r.ValidateKey s (some e) gatewayID key = (s, none) := by
  simp [Redis.ValidateKey, HGet]

/-- C8. A gateway whose record does not exist, or has no `key` field or an empty
one: `ValidateKey` returns nil for every supplied key, the empty string
included, and leaves the store as it was. -/
theorem validateKey_without_stored_key (r : Redis) (s : Store) (gatewayID k : String)
    (hrec : s (r.pfx ++ gatewayID) = none ∨
      ∃ h, s (r.pfx ++ gatewayID) = some h ∧
        (h.lookup "key" = none ∨ h.lookup "key" = some "")) :
    r.ValidateKey s none gatewayID k = (s, none) := by
  rcases hrec with hrec | ⟨h, hrec, hk | hk⟩
  · simp [Redis.ValidateKey, HGet, hrec]
  · simp [Redis.ValidateKey, HGet, hrec, redisKey, hk]
  · simp [Redis.ValidateKey, HGet, hrec, redisKey, hk]

/-- A concrete instance: a record with a token and no key accepts the empty key. -/
theorem validateKey_without_stored_key_witness :
    sampleRedis.ValidateKey (sampleStore [("token", "tok")]) none "gw1" "" =
      (sampleStore [("token", "tok")], none) :=
  validateKey_without_stored_key sampleRedis _ "gw1" ""
    (Or.inr ⟨[("token", "tok")], by decide, Or.inl (by decide)⟩)

/-- C9. A record that holds a non-empty stored key `K`, the read succeeding:
`ValidateKey` with the supplied key `k` returns nil exactly when `k = K` and
the Invalid Key error otherwise, leaves the store as it was, and returns the
same for every record with that stored key, whatever its other fields. -/
theorem validateKey_with_stored_key (r : Redis) (s : Store) (gatewayID : String) (h : Hash)
    (K k : String)
    (hrec : s (r.pfx ++ gatewayID) = some h)
    (hkey : h.lookup "key" = some K) (hK : K ≠ "") :
    ((r.ValidateKey s none gatewayID k).2 = none ↔ k = K) ∧
    (k ≠ K → (r.ValidateKey s none gatewayID k).2 = some (Err.New "Invalid Key")) ∧
    (r.ValidateKey s none gatewayID k).1 = s ∧
    ∀ (s' : Store) (h' : Hash), s' (r.pfx ++ gatewayID) = some h' →
      h'.lookup "key" = some K →
      (r.ValidateKey s' none gatewayID k).2 = (r.ValidateKey s none gatewayID k).2 := by
  have hlen : (K.length == 0) = false := by
    simpa [string_length_eq_zero_iff] using hK
  have key : ∀ (s' : Store) (h' : Hash), s' (r.pfx ++ gatewayID) = some h' →
      h'.lookup "key" = some K →
      r.ValidateKey s' none gatewayID k =
        (s', if k = K then none else some (Err.New "Invalid Key")) := by
    intro s' h' hs' hk'
    by_cases hkK : k = K <;>
      simp [Redis.ValidateKey, HGet, hs', redisKey, hk', hlen, hkK]
  rw [key s h hrec hkey]
  refine ⟨?_, ?_, rfl, ?_⟩
  · by_cases hkK : k = K <;> simp [hkK]
  · intro hkK
    simp [hkK]
  · intro s' h' hs' hk'
    rw [key s' h' hs' hk']

/-- A concrete instance: the stored key `K` and the supplied key `wrong`. -/
theorem validateKey_with_stored_key_witness :
    ((sampleRedis.ValidateKey (sampleStore [("key", "K"), ("token", "tok")]) none "gw1"
        "wrong").2 = none ↔ "wrong" = "K") ∧
    ("wrong" ≠ "K" →
      (sampleRedis.ValidateKey (sampleStore [("key", "K"), ("token", "tok")]) none "gw1"
        "wrong").2 = some (Err.New "Invalid Key")) ∧
    (sampleRedis.ValidateKey (sampleStore [("key", "K"), ("token", "tok")]) none "gw1"
        "wrong").1 = sampleStore [("key", "K"), ("token", "tok")] ∧
    ∀ (s' : Store) (h' : Hash), s' (sampleRedis.pfx ++ "gw1") = some h' →
      h'.lookup "key" = some "K" →
      (sampleRedis.ValidateKey s' none "gw1" "wrong").2 =
        (sampleRedis.ValidateKey (sampleStore [("key", "K"), ("token", "tok")]) none "gw1"
          "wrong").2 :=
  validateKey_with_stored_key sampleRedis _ "gw1" [("key", "K"), ("token", "tok")] "K" "wrong"
    (by decide) (by decide) (by decide)

/-- C10. A record with a non-empty `token` field `T` whose `token_expires` field
is a non-empty string that does not parse as an RFC 3339 timestamp: the expiry
counts as zero and `GetToken` returns `(T, nil)` at every current time, with no
exchange and the store as it was. -/
theorem getToken_malformed_expiry (r : Redis) (s : Store) (now : Time)
    (writeFault : Option Err) (gatewayID : String) (h : Hash) (T str : String)
    (hrec : s (r.pfx ++ gatewayID) = some h)
    (htok : h.lookup "token" = some T) (hT : T ≠ "")
    (hexp : h.lookup "token_expires" = some str) (hstr : str ≠ "")
    (hparse : Time.Parse str = none) :
    r.GetToken s now none writeFault gatewayID = ⟨T, none, s, []⟩ := by
  have hlen := length_beq_zero_of_lookup htok
  simp [Redis.GetToken, Id.run, HGetAll, hrec, redisKey, hlen, htok, hT, hexp, hstr, hparse,
    Time.zero, Time.IsZero]

/-- A concrete instance: the expiry `tomorrow` is no timestamp. -/
theorem getToken_malformed_expiry_witness :
    sampleRedis.GetToken
        (sampleStore [("token", "tok"), ("token_expires", "tomorrow"), ("key", "K")])
        sampleNow none none "gw1" =
      ⟨"tok", none,
        sampleStore [("token", "tok"), ("token_expires", "tomorrow"), ("key", "K")], []⟩ :=
  getToken_malformed_expiry sampleRedis _ sampleNow none "gw1"
    [("token", "tok"), ("token_expires", "tomorrow"), ("key", "K")] "tok" "tomorrow"
    (by decide) (by decide) (by decide) (by decide) (by decide) (by decide)

/-! ## Further lemmas -/

/-- The whole of `GetToken` on a record with fields, after a successful read: the
stored token when it is served, the exchange step otherwise. -/
theorem getToken_eq_steps (r : Redis) (s : Store) (now : Time) (writeFault : Option Err)
    (gatewayID : String) (h : Hash)
    (hrec : s (r.pfx ++ gatewayID) = some h) (hne : h ≠ []) :
    r.GetToken s now none writeFault gatewayID =
      match storedToken h now with
      | some token => ⟨token, none, s, []⟩
      | none => exchangeStep r s writeFault gatewayID h := by
  have hlen := length_beq_zero_of_ne_nil hne
  have hz : (Time.zero.IsZero || Time.zero.After now) = true := by simp [Time.zero, Time.IsZero]
  have hTc : List.lookup "token" h = none ∨ List.lookup "token" h = some "" ∨
      ∃ tok, List.lookup "token" h = some tok ∧ tok ≠ "" := by
    rcases Option.eq_none_or_eq_some (List.lookup "token" h) with hT | ⟨tok, hT⟩
    · exact Or.inl hT
    · by_cases htok : tok = ""
      · exact Or.inr (Or.inl (htok ▸ hT))
      · exact Or.inr (Or.inr ⟨tok, hT, htok⟩)
  have hEc : List.lookup "token_expires" h = none ∨ List.lookup "token_expires" h = some "" ∨
      (∃ str, List.lookup "token_expires" h = some str ∧ str ≠ "" ∧ Time.Parse str = none) ∨
      ∃ str t, List.lookup "token_expires" h = some str ∧ str ≠ "" ∧ Time.Parse str = some t := by
    rcases Option.eq_none_or_eq_some (List.lookup "token_expires" h) with hE | ⟨str, hE⟩
    · exact Or.inl hE
    · by_cases hstr : str = ""
      · exact Or.inr (Or.inl (hstr ▸ hE))
      · rcases Option.eq_none_or_eq_some (Time.Parse str) with hP | ⟨t, hP⟩
        · exact Or.inr (Or.inr (Or.inl ⟨str, hE, hstr, hP⟩))
        · exact Or.inr (Or.inr (Or.inr ⟨str, t, hE, hstr, hP⟩))
  unfold Redis.GetToken storedToken storedExpiry exchangeStep
  simp only [Id.run, HGetAll, hrec, Option.getD, hlen, redisKey]
  rcases hTc with hT | hT | ⟨tok, hT, htok⟩ <;>
  rcases hEc with hE | hE | ⟨str, hE, hstr, hP⟩ | ⟨str, t, hE, hstr, hP⟩ <;>
  rcases Option.eq_none_or_eq_some (List.lookup "key" h) with hK | ⟨key, hK⟩ <;>
  rcases Option.eq_none_or_eq_some r.Exchanger with hX | ⟨ex, hX⟩ <;>
  simp [hT, hE, hK, hX, hz, *] <;>
  cases hb : (t.IsZero || t.After now) <;> simp_all

theorem storedToken_of_fresh {h : Hash} {now : Time} {T : String} (hf : Fresh h now T) :
    storedToken h now = some T := by
  obtain ⟨htok, hT, hexp⟩ := hf
  have hz : (Time.zero.IsZero || Time.zero.After now) = true := by simp [Time.zero, Time.IsZero]
  unfold storedToken storedExpiry
  simp only [redisKey, htok]
  rcases hexp with he | he | ⟨str, t, he, hp, ha⟩
  · simp [he, hT, hz]
  · simp [he, hT, hz]
  · by_cases hs : str = ""
    · simp [he, hs, hT, hz]
    · simp [he, hs, hp, ha, hT]

/-- When the stored token of a record is served, `GetToken` returns it, invokes
no exchange and leaves the store as it was. -/
theorem getToken_of_storedToken (r : Redis) (s : Store) (now : Time) (writeFault : Option Err)
    (gatewayID : String) (h : Hash) (T : String)
    (hrec : s (r.pfx ++ gatewayID) = some h) (hst : storedToken h now = some T) :
    r.GetToken s now none writeFault gatewayID = ⟨T, none, s, []⟩ := by
  have hne : h ≠ [] := by
    intro hnil
    rw [hnil] at hst
    simp [storedToken] at hst
  rw [getToken_eq_steps r s now writeFault gatewayID h hrec hne, hst]

theorem storedToken_eq_none_of_noUsable {h : Hash} {now : Time} (hno : NoUsableToken h now) :
    storedToken h now = none := by
  unfold storedToken storedExpiry
  simp only [redisKey]
  rcases hno with ht | ht | ⟨str, t, he, hp, hz, ha⟩
  · simp [ht]
  · simp [ht]
  · have hs : str ≠ "" := by
      intro hs
      rw [hs, parse_empty] at hp
      exact Option.noConfusion hp
    rcases Option.eq_none_or_eq_some (List.lookup "token" h) with hT | ⟨tok, hT⟩
    · simp [hT]
    · simp [hT, he, hs, hp, hz, ha]

theorem not_after_of_le {t now : Time}
    (hle : t.sec < now.sec ∨ (t.sec = now.sec ∧ t.nsec ≤ now.nsec)) : t.After now = false := by
  unfold Time.After
  rcases hle with hlt | ⟨heq, hn⟩
  · have h1 : ¬ (t.sec > now.sec) := by omega
    have h2 : ¬ (t.sec = now.sec) := by omega
    simp [h1, h2]
  · have h1 : ¬ (t.sec > now.sec) := by omega
    have h2 : ¬ (t.nsec > now.nsec) := by omega
    simp [h1, h2]

/-- C11. The expiry comparison is strict: a record with a non-empty token whose
stored expiry, not the zero time, equals the current instant or lies before
it, does not have its token served; `GetToken` is then the exchange step, which
invokes the exchanger when a non-empty key and an exchanger are present and
returns `ErrGatewayNoValidToken` otherwise. -/
theorem getToken_expiry_strict (r : Redis) (s : Store) (now : Time) (writeFault : Option Err)
    (gatewayID : String) (h : Hash) (T str : String) (t : Time)
    (hrec : s (r.pfx ++ gatewayID) = some h)
    (htok : h.lookup "token" = some T) (hT : T ≠ "")
    (hexp : h.lookup "token_expires" = some str) (hparse : Time.Parse str = some t)
    (hnz : t.IsZero = false)
    (hle : t.sec < now.sec ∨ (t.sec = now.sec ∧ t.nsec ≤ now.nsec)) :
    r.GetToken s now none writeFault gatewayID = exchangeStep r s writeFault gatewayID h ∧
    (∀ K exchange, h.lookup "key" = some K → K ≠ "" → r.Exchanger = some exchange →
      (r.GetToken s now none writeFault gatewayID).exchanges = [(gatewayID, K)]) ∧
    (h.lookup "key" = none ∨ h.lookup "key" = some "" ∨ r.Exchanger = none →
      r.GetToken s now none writeFault gatewayID =
        ⟨"", some Err.ErrGatewayNoValidToken, s, []⟩) := by
  have hne : h ≠ [] := by
    intro hnil
    rw [hnil] at htok
    exact Option.noConfusion htok
  have hno : NoUsableToken h now :=
    Or.inr (Or.inr ⟨str, t, hexp, hparse, hnz, not_after_of_le hle⟩)
  have hstep : r.GetToken s now none writeFault gatewayID =
      exchangeStep r s writeFault gatewayID h := by
    rw [getToken_eq_steps r s now writeFault gatewayID h hrec hne,
      storedToken_eq_none_of_noUsable hno]
  refine ⟨hstep, ?_, ?_⟩
  · intro K exchange hk hK hx
    rw [hstep]
    unfold exchangeStep
    simp only [redisKey, hk, hx, hK, if_false]
    split <;> rfl
  · intro hkx
    rw [hstep]
    unfold exchangeStep
    simp only [redisKey]
    rcases hkx with hk | hk | hx
    · simp [hk]
    · cases hx : r.Exchanger <;> simp [hk]
    · cases hk : h.lookup "key" <;> simp [hx]

/-- A concrete instance: the stored expiry is the current instant itself, and the
record has no key. -/
theorem getToken_expiry_strict_witness :
    sampleRedis.GetToken
        (sampleStore [("token", "tok"), ("token_expires", "2030-01-01T00:00:00Z")])
        ⟨64029052800, 0, 0⟩ none none "gw1" =
      exchangeStep sampleRedis
        (sampleStore [("token", "tok"), ("token_expires", "2030-01-01T00:00:00Z")])
        none "gw1" [("token", "tok"), ("token_expires", "2030-01-01T00:00:00Z")] ∧
    (∀ K exchange,
      List.lookup "key" [("token", "tok"), ("token_expires", "2030-01-01T00:00:00Z")] = some K →
      K ≠ "" → sampleRedis.Exchanger = some exchange →
      (sampleRedis.GetToken
        (sampleStore [("token", "tok"), ("token_expires", "2030-01-01T00:00:00Z")])
        ⟨64029052800, 0, 0⟩ none none "gw1").exchanges = [("gw1", K)]) ∧
    (List.lookup "key" [("token", "tok"), ("token_expires", "2030-01-01T00:00:00Z")] = none ∨
      List.lookup "key" [("token", "tok"), ("token_expires", "2030-01-01T00:00:00Z")] = some "" ∨
      sampleRedis.Exchanger = none →
      sampleRedis.GetToken
          (sampleStore [("token", "tok"), ("token_expires", "2030-01-01T00:00:00Z")])
          ⟨64029052800, 0, 0⟩ none none "gw1" =
        ⟨"", some Err.ErrGatewayNoValidToken,
          sampleStore [("token", "tok"), ("token_expires", "2030-01-01T00:00:00Z")], []⟩) :=
  getToken_expiry_strict sampleRedis _ ⟨64029052800, 0, 0⟩ none "gw1"
    [("token", "tok"), ("token_expires", "2030-01-01T00:00:00Z")] "tok"
    "2030-01-01T00:00:00Z" ⟨64029052800, 0, 0⟩
    (by decide) (by decide) (by decide) (by decide) (by decide) (by decide)
    (Or.inr ⟨rfl, Nat.le_refl 0⟩)

/-- C12. When the exchanger answers `(newtok, exp, nil)` and the write of
`SetToken` then fails with an error `e`, `GetToken` still returns
`(newtok, nil)`, the token and error it returns when the write succeeds. -/
theorem getToken_ignores_write_failure (r : Redis) (s : Store) (now : Time)
    (gatewayID : String) (h : Hash) (K newtok : String) (exp : Time) (exchange : Exchanger)
    (e : Err)
    (hrec : s (r.pfx ++ gatewayID) = some h)
    (hno : NoUsableToken h now)
    (hkey : h.lookup "key" = some K) (hK : K ≠ "")
    (hreg : r.Exchanger = some exchange)
    (hex : exchange gatewayID K = (newtok, exp, none)) :
    (r.GetToken s now none (some e) gatewayID).token = newtok ∧
    (r.GetToken s now none (some e) gatewayID).err = none ∧
    (r.GetToken s now none (some e) gatewayID).token =
      (r.GetToken s now none none gatewayID).token ∧
    (r.GetToken s now none (some e) gatewayID).err =
      (r.GetToken s now none none gatewayID).err := by
  have hne : h ≠ [] := by
    intro hnil
    rw [hnil] at hkey
    exact Option.noConfusion hkey
  rw [getToken_exchange_step r s now (some e) gatewayID h hrec hne hno,
    getToken_exchange_step r s now none gatewayID h hrec hne hno]
  simp [hkey, hreg, hex, hK]

/-- A concrete instance: an expired token, the key `K`, the sample exchanger, and a
write that fails. -/
theorem getToken_ignores_write_failure_witness :
    (sampleRedis.GetToken
        (sampleStore [("token", "tok"), ("token_expires", "2020-01-01T00:00:00Z"), ("key", "K")])
        sampleNow none (some (Err.New "connection lost")) "gw1").token = "newtok" ∧
    (sampleRedis.GetToken
        (sampleStore [("token", "tok"), ("token_expires", "2020-01-01T00:00:00Z"), ("key", "K")])
        sampleNow none (some (Err.New "connection lost")) "gw1").err = none ∧
    (sampleRedis.GetToken
        (sampleStore [("token", "tok"), ("token_expires", "2020-01-01T00:00:00Z"), ("key", "K")])
        sampleNow none (some (Err.New "connection lost")) "gw1").token =
      (sampleRedis.GetToken
        (sampleStore [("token", "tok"), ("token_expires", "2020-01-01T00:00:00Z"), ("key", "K")])
        sampleNow none none "gw1").token ∧
    (sampleRedis.GetToken
        (sampleStore [("token", "tok"), ("token_expires", "2020-01-01T00:00:00Z"), ("key", "K")])
        sampleNow none (some (Err.New "connection lost")) "gw1").err =
      (sampleRedis.GetToken
        (sampleStore [("token", "tok"), ("token_expires", "2020-01-01T00:00:00Z"), ("key", "K")])
        sampleNow none none "gw1").err :=
  getToken_ignores_write_failure sampleRedis _ sampleNow "gw1"
    [("token", "tok"), ("token_expires", "2020-01-01T00:00:00Z"), ("key", "K")]
    "K" "newtok" ⟨64029052800, 0, 0⟩ sampleExchanger (Err.New "connection lost")
    (by decide)
    (Or.inr (Or.inr ⟨"2020-01-01T00:00:00Z", ⟨63713433600, 0, 0⟩,
      by decide, by decide, by decide, by decide⟩))
    (by decide) (by decide) rfl (by decide)

theorem put_self (s : Store) (key : String) (h : Option Hash) : (s.put key h) key = h := by
  simp [Store.put]

theorem put_other (s : Store) (key k : String) (h : Option Hash) (hk : k ≠ key) :
    (s.put key h) k = s k := by
  simp [Store.put, hk]

theorem set_set_self (h : Hash) (f v : String) : (h.set f v).set f v = h.set f v := by
  simp [Hash.set, List.filter_filter]

theorem put_put (s : Store) (key : String) (h1 h2 : Option Hash) :
    (s.put key h1).put key h2 = s.put key h2 := by
  funext k
  by_cases hk : k = key <;> simp [Store.put, hk]

/-- The record of a gateway after a successful `SetKey`. -/
theorem setKey_record (r : Redis) (s : Store) (gatewayID key : String) :
    (r.SetKey s none gatewayID key).1 (r.pfx ++ gatewayID) =
      some (((s (r.pfx ++ gatewayID)).getD []).set "key" key) := by
  simp [Redis.SetKey, HSet, Store.put, redisKey]

/-- C13. After a successful `SetToken(id, tok, zeroTime)` with a non-empty token,
from any store state: the `token_expires` field of the record is the empty
string, and `GetToken(id)` returns `(tok, nil)` at every current time, whatever
the key and the exchanger, with no exchange and no change of the store. -/
theorem setToken_zero_never_expires (r : Redis) (s : Store) (gatewayID tok : String)
    (exp : Time) (htok : tok ≠ "") (hz : exp.IsZero = true) :
    (r.SetToken s none gatewayID tok exp).2 = none ∧
    (r.SetToken s none gatewayID tok exp).1.field (r.pfx ++ gatewayID) "token_expires" =
      some "" ∧
    ∀ (now : Time) (writeFault : Option Err),
      r.GetToken (r.SetToken s none gatewayID tok exp).1 now none writeFault gatewayID =
        ⟨tok, none, (r.SetToken s none gatewayID tok exp).1, []⟩ := by
  have hrec := setToken_record r s gatewayID tok exp
  simp only [hz, if_true] at hrec
  refine ⟨?_, ?_, ?_⟩
  · simp [Redis.SetToken, HMSet]
  · simp only [Store.field, hrec, Option.bind]
    rw [lookup_set_ne _ _ _ _ (by decide), lookup_set_self]
  · intro now writeFault
    apply getToken_of_storedToken r _ now writeFault gatewayID _ tok hrec
    apply storedToken_of_fresh
    refine ⟨lookup_set_self _ _ _, htok, Or.inr (Or.inl ?_)⟩
    rw [lookup_set_ne _ _ _ _ (by decide), lookup_set_self]

/-- A concrete instance: the zero time replaces an expiry that had passed. -/
theorem setToken_zero_never_expires_witness :
    (sampleRedis.SetToken
      (sampleStore [("token", "old"), ("token_expires", "2020-01-01T00:00:00Z"), ("key", "K")])
      none "gw1" "tok" Time.zero).2 = none ∧
    (sampleRedis.SetToken
      (sampleStore [("token", "old"), ("token_expires", "2020-01-01T00:00:00Z"), ("key", "K")])
      none "gw1" "tok" Time.zero).1.field (sampleRedis.pfx ++ "gw1") "token_expires" =
      some "" ∧
    ∀ (now : Time) (writeFault : Option Err),
      sampleRedis.GetToken (sampleRedis.SetToken
        (sampleStore [("token", "old"), ("token_expires", "2020-01-01T00:00:00Z"), ("key", "K")])
        none "gw1" "tok" Time.zero).1 now none writeFault "gw1" =
        ⟨"tok", none, (sampleRedis.SetToken
          (sampleStore [("token", "old"), ("token_expires", "2020-01-01T00:00:00Z"), ("key", "K")])
          none "gw1" "tok" Time.zero).1, []⟩ :=
  setToken_zero_never_expires sampleRedis _ "gw1" "tok" Time.zero (by decide) (by decide)

/-- C14. Key and token are set independently: `SetKey` leaves every field of the
record other than `key` as it was, in particular `token` and `token_expires`,
and `SetToken` leaves every field other than `token` and `token_expires` as it
was, in particular `key`; this for every prior store state, the command
succeeding or failing. Succeeding, they store the given values. -/
theorem setKey_setToken_independent (r : Redis) (s : Store) (fault : Option Err)
    (gatewayID key token : String) (expires : Time) (f g : String)
    (hf : f ≠ "key") (hg : g ≠ "token") (hg' : g ≠ "token_expires") :
    (r.SetKey s fault gatewayID key).1.field (r.pfx ++ gatewayID) f =
      s.field (r.pfx ++ gatewayID) f ∧
    (r.SetToken s fault gatewayID token expires).1.field (r.pfx ++ gatewayID) g =
      s.field (r.pfx ++ gatewayID) g ∧
    (r.SetKey s none gatewayID key).1.field (r.pfx ++ gatewayID) "key" = some key ∧
    (r.SetToken s none gatewayID token expires).1.field (r.pfx ++ gatewayID) "token" =
      some token ∧
    (r.SetToken s none gatewayID token expires).1.field (r.pfx ++ gatewayID) "token_expires" =
      some (if expires.IsZero then "" else expires.Format) := by
  have hlk : ∀ x : String, List.lookup x ((s (r.pfx ++ gatewayID)).getD []) =
      s.field (r.pfx ++ gatewayID) x := by
    intro x
    cases hs : s (r.pfx ++ gatewayID) <;> simp [Store.field, hs]
  refine ⟨?_, ?_, ?_, ?_, ?_⟩
  · cases fault with
    | some e => simp [Redis.SetKey, HSet]
    | none =>
      simp only [Store.field, setKey_record, Option.bind]
      rw [lookup_set_ne _ _ _ _ hf, hlk]
      rfl
  · cases fault with
    | some e => simp [Redis.SetToken, HMSet]
    | none =>
      simp only [Store.field, setToken_record, Option.bind]
      rw [lookup_set_ne _ _ _ _ hg, lookup_set_ne _ _ _ _ hg', hlk]
      rfl
  · simp only [Store.field, setKey_record, Option.bind]
    exact lookup_set_self _ _ _
  · simp only [Store.field, setToken_record, Option.bind]
    exact lookup_set_self _ _ _
  · simp only [Store.field, setToken_record, Option.bind]
    rw [lookup_set_ne _ _ _ _ (by decide), lookup_set_self]

/-- A concrete instance: the field `token` under `SetKey`, the field `key` under
`SetToken`. -/
theorem setKey_setToken_independent_witness :
    (sampleRedis.SetKey (sampleStore [("token", "tok"), ("key", "K")]) none "gw1" "K2").1.field
        (sampleRedis.pfx ++ "gw1") "token" =
      (sampleStore [("token", "tok"), ("key", "K")]).field (sampleRedis.pfx ++ "gw1") "token" ∧
    (sampleRedis.SetToken (sampleStore [("token", "tok"), ("key", "K")]) none "gw1" "tok2"
        sampleNow).1.field (sampleRedis.pfx ++ "gw1") "key" =
      (sampleStore [("token", "tok"), ("key", "K")]).field (sampleRedis.pfx ++ "gw1") "key" ∧
    (sampleRedis.SetKey (sampleStore [("token", "tok"), ("key", "K")]) none "gw1" "K2").1.field
        (sampleRedis.pfx ++ "gw1") "key" = some "K2" ∧
    (sampleRedis.SetToken (sampleStore [("token", "tok"), ("key", "K")]) none "gw1" "tok2"
        sampleNow).1.field (sampleRedis.pfx ++ "gw1") "token" = some "tok2" ∧
    (sampleRedis.SetToken (sampleStore [("token", "tok"), ("key", "K")]) none "gw1" "tok2"
        sampleNow).1.field (sampleRedis.pfx ++ "gw1") "token_expires" =
      some (if sampleNow.IsZero then "" else sampleNow.Format) :=
  setKey_setToken_independent sampleRedis _ none "gw1" "K2" "tok2" sampleNow "token" "key"
    (by decide) (by decide) (by decide)

/-- C15. After a successful `Delete(id)`, from any store state, the record of the
gateway is gone: `GetToken(id)` returns `ErrGatewayNotFound`, with an exchanger
registered or not, and `ValidateKey(id, k)` returns nil for every key `k`, as
for a gateway that never existed. -/
theorem delete_then_reads (r : Redis) (s : Store) (gatewayID : String) :
    (r.Delete s none gatewayID).2 = none ∧
    (r.Delete s none gatewayID).1 (r.pfx ++ gatewayID) = none ∧
    (∀ (now : Time) (writeFault : Option Err),
      r.GetToken (r.Delete s none gatewayID).1 now none writeFault gatewayID =
        ⟨"", some Err.ErrGatewayNotFound, (r.Delete s none gatewayID).1, []⟩) ∧
    ∀ k : String,
      r.ValidateKey (r.Delete s none gatewayID).1 none gatewayID k =
        ((r.Delete s none gatewayID).1, none) := by
  have hrec : (r.Delete s none gatewayID).1 (r.pfx ++ gatewayID) = none := by
    simp [Redis.Delete, Del, Store.put]
  refine ⟨rfl, hrec, ?_, ?_⟩
  · intro now writeFault
    simp [Redis.GetToken, Id.run, HGetAll, hrec]
  · intro k
    simp [Redis.ValidateKey, HGet, hrec]

/-- C16, amended. A gateway without token whose key is set to a non-empty string
`K` by `SetKey`: `ValidateKey` with `K` returns nil, and with every `K2` other
than `K` it returns the Invalid Key error; the record still has no token. -/
theorem validateKey_after_setKey (r : Redis) (s : Store) (gatewayID K K2 : String)
    (hnotok : s.field (r.pfx ++ gatewayID) "token" = none)
    (hK : K ≠ "") (hK2 : K2 ≠ K) :
    (r.SetKey s none gatewayID K).2 = none ∧
    (r.SetKey s none gatewayID K).1.field (r.pfx ++ gatewayID) "token" = none ∧
    r.ValidateKey (r.SetKey s none gatewayID K).1 none gatewayID K =
      ((r.SetKey s none gatewayID K).1, none) ∧
    r.ValidateKey (r.SetKey s none gatewayID K).1 none gatewayID K2 =
      ((r.SetKey s none gatewayID K).1, some (Err.New "Invalid Key")) := by
  have hrec := setKey_record r s gatewayID K
  have hlen : (K.length == 0) = false := by
    simpa [string_length_eq_zero_iff] using hK
  refine ⟨rfl, ?_, ?_, ?_⟩
  · simp only [Store.field, hrec, Option.bind]
    rw [lookup_set_ne _ _ _ _ (by decide)]
    cases hs : s (r.pfx ++ gatewayID) with
    | none => rfl
    | some h0 => simpa [Store.field, hs] using hnotok
  · simp [Redis.ValidateKey, HGet, hrec, redisKey, lookup_set_self]
  · simp [Redis.ValidateKey, HGet, hrec, redisKey, lookup_set_self, hlen, hK2]

/-- A concrete instance: the key `K` on an empty store, checked against `wrong`. -/
theorem validateKey_after_setKey_witness :
    (sampleRedis.SetKey (fun _ => none) none "gw1" "K").2 = none ∧
    (sampleRedis.SetKey (fun _ => none) none "gw1" "K").1.field (sampleRedis.pfx ++ "gw1")
      "token" = none ∧
    sampleRedis.ValidateKey (sampleRedis.SetKey (fun _ => none) none "gw1" "K").1 none "gw1"
        "K" = ((sampleRedis.SetKey (fun _ => none) none "gw1" "K").1, none) ∧
    sampleRedis.ValidateKey (sampleRedis.SetKey (fun _ => none) none "gw1" "K").1 none "gw1"
        "wrong" =
      ((sampleRedis.SetKey (fun _ => none) none "gw1" "K").1, some (Err.New "Invalid Key")) :=
  validateKey_after_setKey sampleRedis (fun _ => none) "gw1" "K" "wrong"
    rfl (by decide) (by decide)

/-- C16 as stated fails for the empty string: after `SetKey(id, "")` on a gateway
without token, `ValidateKey` with the different key `x` returns nil, not the
Invalid Key error. -/
theorem validateKey_after_setKey_empty :
    (sampleRedis.SetKey (fun _ => none) none "gw1" "").2 = none ∧
    (sampleRedis.SetKey (fun _ => none) none "gw1" "").1.field (sampleRedis.pfx ++ "gw1") "key" =
      some "" ∧
    (sampleRedis.SetKey (fun _ => none) none "gw1" "").1.field (sampleRedis.pfx ++ "gw1")
      "token" = none ∧
    "x" ≠ "" ∧
    (sampleRedis.ValidateKey (sampleRedis.SetKey (fun _ => none) none "gw1" "").1 none "gw1"
      "x").2 = none :=
  ⟨by decide, by decide, by decide, by decide, by decide⟩

/-- C17. Idempotence: for every store state, `SetKey(id, k)` applied twice gives the
store and the result of applying it once; and when the stored token is fresh
at the times of two consecutive `GetToken(id)` calls, both return the same
`(T, nil)`, the store stays as it was and no exchange is invoked. -/
theorem setKey_getToken_idempotent (r : Redis) (s : Store) (fault : Option Err)
    (gatewayID k : String) (now₁ now₂ : Time) (wf₁ wf₂ : Option Err) :
    r.SetKey (r.SetKey s fault gatewayID k).1 fault gatewayID k =
      r.SetKey s fault gatewayID k ∧
    ∀ (h : Hash) (T : String), s (r.pfx ++ gatewayID) = some h →
      Fresh h now₁ T → Fresh h now₂ T →
      r.GetToken s now₁ none wf₁ gatewayID = ⟨T, none, s, []⟩ ∧
      r.GetToken (r.GetToken s now₁ none wf₁ gatewayID).store now₂ none wf₂ gatewayID =
        ⟨T, none, s, []⟩ := by
  refine ⟨?_, ?_⟩
  · cases fault with
    | some e => simp [Redis.SetKey, HSet]
    | none => simp [Redis.SetKey, HSet, put_self, put_put, set_set_self]
  · intro h T hrec hf₁ hf₂
    have h₁ :=
      getToken_of_storedToken r s now₁ wf₁ gatewayID h T hrec (storedToken_of_fresh hf₁)
    have h₂ :=
      getToken_of_storedToken r s now₂ wf₂ gatewayID h T hrec (storedToken_of_fresh hf₂)
    refine ⟨h₁, ?_⟩
    rw [h₁]
    exact h₂

/-- A concrete instance: `SetKey` twice on a store that holds nothing, and a token
valid until 2030 read twice in 2025. -/
theorem setKey_getToken_idempotent_witness :
    sampleRedis.SetKey (sampleRedis.SetKey (fun _ => none) none "gw1" "K").1 none "gw1" "K" =
      sampleRedis.SetKey (fun _ => none) none "gw1" "K" ∧
    sampleRedis.GetToken
        (sampleStore [("token", "tok"), ("token_expires", "2030-01-01T00:00:00Z")])
        sampleNow none none "gw1" =
      ⟨"tok", none,
        sampleStore [("token", "tok"), ("token_expires", "2030-01-01T00:00:00Z")], []⟩ ∧
    sampleRedis.GetToken
        (sampleRedis.GetToken
          (sampleStore [("token", "tok"), ("token_expires", "2030-01-01T00:00:00Z")])
          sampleNow none none "gw1").store ⟨63900000060, 0, 0⟩ none none "gw1" =
      ⟨"tok", none,
        sampleStore [("token", "tok"), ("token_expires", "2030-01-01T00:00:00Z")], []⟩ :=
  ⟨(setKey_getToken_idempotent sampleRedis (fun _ => none) none "gw1" "K" sampleNow
      ⟨63900000060, 0, 0⟩ none none).1,
    (setKey_getToken_idempotent sampleRedis
      (sampleStore [("token", "tok"), ("token_expires", "2030-01-01T00:00:00Z")]) none "gw1" "K"
      sampleNow ⟨63900000060, 0, 0⟩ none none).2
      [("token", "tok"), ("token_expires", "2030-01-01T00:00:00Z")] "tok"
      (by decide)
      ⟨by decide, by decide, Or.inr (Or.inr ⟨"2030-01-01T00:00:00Z", ⟨64029052800, 0, 0⟩,
        by decide, by decide, by decide⟩)⟩
      ⟨by decide, by decide, Or.inr (Or.inr ⟨"2030-01-01T00:00:00Z", ⟨64029052800, 0, 0⟩,
        by decide, by decide, by decide⟩)⟩⟩

theorem append_left_cancel (p a b : String) (hp : p ++ a = p ++ b) : a = b := by
  have hd : (p ++ a).data = (p ++ b).data := by rw [hp]
  simp only [String.data_append] at hd
  exact String.ext (List.append_cancel_left hd)

theorem setToken_other (r : Redis) (s : Store) (fault : Option Err) (gatewayID token : String)
    (expires : Time) (k : String) (hk : k ≠ r.pfx ++ gatewayID) :
    (r.SetToken s fault gatewayID token expires).1 k = s k := by
  cases fault <;> simp [Redis.SetToken, HMSet, Store.put, hk]

theorem exchangeStep_store_other (r : Redis) (s : Store) (writeFault : Option Err)
    (gatewayID : String) (res : Hash) (k : String) (hk : k ≠ r.pfx ++ gatewayID) :
    (exchangeStep r s writeFault gatewayID res).store k = s k := by
  unfold exchangeStep
  split
  · split
    · rfl
    · split
      · exact setToken_other r s writeFault gatewayID _ _ k hk
      · rfl
  · rfl

theorem getToken_of_no_fields (r : Redis) (s : Store) (now : Time)
    (readFault writeFault : Option Err) (gatewayID : String)
    (hrec : readFault ≠ none ∨ s (r.pfx ++ gatewayID) = none ∨ s (r.pfx ++ gatewayID) = some []) :
    r.GetToken s now readFault writeFault gatewayID =
      ⟨"", some Err.ErrGatewayNotFound, s, []⟩ := by
  cases readFault with
  | some e => simp [Redis.GetToken, Id.run, HGetAll]
  | none =>
    rcases hrec with hrec | hrec | hrec
    · exact absurd rfl hrec
    · simp [Redis.GetToken, Id.run, HGetAll, hrec]
    · simp [Redis.GetToken, Id.run, HGetAll, hrec]

/-- The ways a record can be for `GetToken`: the read fails or finds no field, or
it finds the fields `h`. -/
theorem record_cases (s : Store) (readFault : Option Err) (key : String) :
    (readFault ≠ none ∨ s key = none ∨ s key = some []) ∨
      ∃ h, readFault = none ∧ s key = some h ∧ h ≠ [] := by
  cases readFault with
  | some e => exact Or.inl (Or.inl (by simp))
  | none =>
    rcases Option.eq_none_or_eq_some (s key) with hs | ⟨h, hs⟩
    · exact Or.inl (Or.inr (Or.inl hs))
    · by_cases hh : h = []
      · exact Or.inl (Or.inr (Or.inr (hh ▸ hs)))
      · exact Or.inr ⟨h, rfl, hs, hh⟩

/-- The store after `GetToken` differs from the store before at most in the record
of the gateway asked for. -/
theorem getToken_store_other (r : Redis) (s : Store) (now : Time)
    (readFault writeFault : Option Err) (gatewayID : String) (k : String)
    (hk : k ≠ r.pfx ++ gatewayID) :
    (r.GetToken s now readFault writeFault gatewayID).store k = s k := by
  rcases record_cases s readFault (r.pfx ++ gatewayID) with hnf | ⟨h, hrf, hrec, hne⟩
  · rw [getToken_of_no_fields r s now readFault writeFault gatewayID hnf]
  · subst hrf
    rw [getToken_eq_steps r s now writeFault gatewayID h hrec hne]
    split
    · rfl
    · exact exchangeStep_store_other r s writeFault gatewayID h k hk

theorem exchangeStep_congr (r : Redis) (s₁ s₂ : Store) (writeFault : Option Err)
    (gatewayID : String) (res : Hash)
    (hs : s₁ (r.pfx ++ gatewayID) = s₂ (r.pfx ++ gatewayID)) :
    (exchangeStep r s₁ writeFault gatewayID res).token =
      (exchangeStep r s₂ writeFault gatewayID res).token ∧
    (exchangeStep r s₁ writeFault gatewayID res).err =
      (exchangeStep r s₂ writeFault gatewayID res).err ∧
    (exchangeStep r s₁ writeFault gatewayID res).exchanges =
      (exchangeStep r s₂ writeFault gatewayID res).exchanges ∧
    (exchangeStep r s₁ writeFault gatewayID res).store (r.pfx ++ gatewayID) =
      (exchangeStep r s₂ writeFault gatewayID res).store (r.pfx ++ gatewayID) := by
  have hset : ∀ tok exp, (r.SetToken s₁ writeFault gatewayID tok exp).1 (r.pfx ++ gatewayID) =
      (r.SetToken s₂ writeFault gatewayID tok exp).1 (r.pfx ++ gatewayID) := by
    intro tok exp
    cases writeFault <;> simp [Redis.SetToken, HMSet, Store.put, hs]
  unfold exchangeStep
  split
  · split
    · exact ⟨rfl, rfl, rfl, hs⟩
    · split
      · exact ⟨rfl, rfl, rfl, hset _ _⟩
      · exact ⟨rfl, rfl, rfl, hs⟩
  · exact ⟨rfl, rfl, rfl, hs⟩

/-- What `GetToken` returns and writes for a gateway depends on the store only
through the record of that gateway. -/
theorem getToken_congr (r : Redis) (s₁ s₂ : Store) (now : Time)
    (readFault writeFault : Option Err) (gatewayID : String)
    (hs : s₁ (r.pfx ++ gatewayID) = s₂ (r.pfx ++ gatewayID)) :
    (r.GetToken s₁ now readFault writeFault gatewayID).token =
      (r.GetToken s₂ now readFault writeFault gatewayID).token ∧
    (r.GetToken s₁ now readFault writeFault gatewayID).err =
      (r.GetToken s₂ now readFault writeFault gatewayID).err ∧
    (r.GetToken s₁ now readFault writeFault gatewayID).exchanges =
      (r.GetToken s₂ now readFault writeFault gatewayID).exchanges ∧
    (r.GetToken s₁ now readFault writeFault gatewayID).store (r.pfx ++ gatewayID) =
      (r.GetToken s₂ now readFault writeFault gatewayID).store (r.pfx ++ gatewayID) := by
  rcases record_cases s₂ readFault (r.pfx ++ gatewayID) with hnf | ⟨h, hrf, hrec, hne⟩
  · have hnf₁ : readFault ≠ none ∨ s₁ (r.pfx ++ gatewayID) = none ∨
        s₁ (r.pfx ++ gatewayID) = some [] := by
      rw [hs]
      exact hnf
    rw [getToken_of_no_fields r s₁ now readFault writeFault gatewayID hnf₁,
      getToken_of_no_fields r s₂ now readFault writeFault gatewayID hnf]
    exact ⟨rfl, rfl, rfl, hs⟩
  · subst hrf
    rw [getToken_eq_steps r s₁ now writeFault gatewayID h (hs.trans hrec) hne,
      getToken_eq_steps r s₂ now writeFault gatewayID h hrec hne]
    split
    · exact ⟨rfl, rfl, rfl, hs⟩
    · exact exchangeStep_congr r s₁ s₂ writeFault gatewayID h hs

theorem validateKey_congr (r : Redis) (s₁ s₂ : Store) (fault : Option Err)
    (gatewayID k : String) (hs : s₁ (r.pfx ++ gatewayID) = s₂ (r.pfx ++ gatewayID)) :
    (r.ValidateKey s₁ fault gatewayID k).2 = (r.ValidateKey s₂ fault gatewayID k).2 := by
  unfold Redis.ValidateKey HGet
  rw [hs]
  cases fault with
  | some e => simp
  | none =>
    simp only
    split <;> rfl

/-- C19. Gateway isolation: distinct gateway IDs have distinct store keys, so
`SetKey`, `SetToken`, `Delete` and `GetToken` on the gateway `a` leave the
record of another gateway `b` as it was, and `ValidateKey` and `GetToken` on
`b` return and write for `b` the same before and after. -/
theorem gateway_isolation (r : Redis) (s : Store) (a b : String) (hab : a ≠ b)
    (fault readFault writeFault : Option Err) (key token : String) (expires now : Time) :
    r.pfx ++ a ≠ r.pfx ++ b ∧
    ∀ s' : Store,
      s' = (r.SetKey s fault a key).1 ∨ s' = (r.SetToken s fault a token expires).1 ∨
        s' = (r.Delete s fault a).1 ∨
        s' = (r.GetToken s now readFault writeFault a).store →
      s' (r.pfx ++ b) = s (r.pfx ++ b) ∧
      (∀ (fault' : Option Err) (k : String),
        (r.ValidateKey s' fault' b k).2 = (r.ValidateKey s fault' b k).2) ∧
      ∀ (now' : Time) (readFault' writeFault' : Option Err),
        (r.GetToken s' now' readFault' writeFault' b).token =
          (r.GetToken s now' readFault' writeFault' b).token ∧
        (r.GetToken s' now' readFault' writeFault' b).err =
          (r.GetToken s now' readFault' writeFault' b).err ∧
        (r.GetToken s' now' readFault' writeFault' b).exchanges =
          (r.GetToken s now' readFault' writeFault' b).exchanges ∧
        (r.GetToken s' now' readFault' writeFault' b).store (r.pfx ++ b) =
          (r.GetToken s now' readFault' writeFault' b).store (r.pfx ++ b) := by
  have hkey : r.pfx ++ a ≠ r.pfx ++ b := fun hp => hab (append_left_cancel r.pfx a b hp)
  have hkey' : r.pfx ++ b ≠ r.pfx ++ a := fun hp => hkey hp.symm
  refine ⟨hkey, ?_⟩
  intro s' hs'
  have hrec : s' (r.pfx ++ b) = s (r.pfx ++ b) := by
    rcases hs' with hs' | hs' | hs' | hs' <;> subst hs'
    · cases fault <;> simp [Redis.SetKey, HSet, Store.put, hkey']
    · exact setToken_other r s fault a token expires _ hkey'
    · cases fault <;> simp [Redis.Delete, Del, Store.put, hkey']
    · exact getToken_store_other r s now readFault writeFault a _ hkey'
  exact ⟨hrec, fun fault' k => validateKey_congr r s' s fault' b k hrec,
    fun now' readFault' writeFault' => getToken_congr r s' s now' readFault' writeFault' b hrec⟩

/-- A concrete instance: the gateways `gw2` and `gw1`. -/
theorem gateway_isolation_witness :
    sampleRedis.pfx ++ "gw2" ≠ sampleRedis.pfx ++ "gw1" ∧
    ∀ s' : Store,
      s' = (sampleRedis.SetKey (sampleStore [("key", "K")]) none "gw2" "K2").1 ∨
        s' = (sampleRedis.SetToken (sampleStore [("key", "K")]) none "gw2" "tok"
          Time.zero).1 ∨
        s' = (sampleRedis.Delete (sampleStore [("key", "K")]) none "gw2").1 ∨
        s' = (sampleRedis.GetToken (sampleStore [("key", "K")]) sampleNow none none
          "gw2").store →
      s' (sampleRedis.pfx ++ "gw1") = sampleStore [("key", "K")] (sampleRedis.pfx ++ "gw1") ∧
      (∀ (fault' : Option Err) (k : String),
        (sampleRedis.ValidateKey s' fault' "gw1" k).2 =
          (sampleRedis.ValidateKey (sampleStore [("key", "K")]) fault' "gw1" k).2) ∧
      ∀ (now' : Time) (readFault' writeFault' : Option Err),
        (sampleRedis.GetToken s' now' readFault' writeFault' "gw1").token =
          (sampleRedis.GetToken (sampleStore [("key", "K")]) now' readFault' writeFault'
            "gw1").token ∧
        (sampleRedis.GetToken s' now' readFault' writeFault' "gw1").err =
          (sampleRedis.GetToken (sampleStore [("key", "K")]) now' readFault' writeFault'
            "gw1").err ∧
        (sampleRedis.GetToken s' now' readFault' writeFault' "gw1").exchanges =
          (sampleRedis.GetToken (sampleStore [("key", "K")]) now' readFault' writeFault'
            "gw1").exchanges ∧
        (sampleRedis.GetToken s' now' readFault' writeFault' "gw1").store
            (sampleRedis.pfx ++ "gw1") =
          (sampleRedis.GetToken (sampleStore [("key", "K")]) now' readFault' writeFault'
            "gw1").store (sampleRedis.pfx ++ "gw1") :=
  gateway_isolation sampleRedis (sampleStore [("key", "K")]) "gw2" "gw1" (by decide)
    none none none "K2" "tok" Time.zero sampleNow

/-! ## The expiry written by `SetToken` and read back by `GetToken` -/

namespace Time

set_option maxHeartbeats 1000000 in
theorem era_facts (doe yoe doy : Int) (h0 : 0 ≤ doe) (h1 : doe ≤ 146096)
    (hyoe : yoe = (doe - doe / 1460 + doe / 36524 - doe / 146096) / 365)
    (hdoy : doy = doe - (365 * yoe + yoe / 4 - yoe / 100)) :
    0 ≤ yoe ∧ yoe ≤ 399 ∧ 0 ≤ doy ∧ doy ≤ 365 ∧
      (doy = 365 → (yoe + 1) % 4 = 0 ∧ ((yoe + 1) % 100 ≠ 0 ∨ (yoe + 1) % 400 = 0)) := by
  by_cases hlast : doe = 146096
  · subst hlast
    subst hyoe
    subst hdoy
    norm_num
  · have hg : doe / 146096 = 0 := by omega
    rw [hg] at hyoe
    obtain ⟨e, he⟩ : ∃ e, e = doe / 1460 := ⟨_, rfl⟩
    obtain ⟨f, hf⟩ : ∃ f, f = doe / 36524 := ⟨_, rfl⟩
    rw [← he, ← hf] at hyoe
    obtain ⟨k, hk⟩ : ∃ k, k = yoe - 4 * e := ⟨_, rfl⟩
    obtain ⟨d, hd⟩ : ∃ d, d = yoe / 100 := ⟨_, rfl⟩
    have hf' : 0 ≤ f ∧ f ≤ 3 := by omega
    have hk' : -1 ≤ k ∧ k ≤ 4 := by omega
    have hd' : 0 ≤ d ∧ d ≤ 3 := by omega
    obtain ⟨hf0, hf1⟩ := hf'
    obtain ⟨hk0, hk1⟩ := hk'
    obtain ⟨hd0, hd1⟩ := hd'
    have hyk : yoe = k + 4 * e := by omega
    subst hyk
    clear hk
    interval_cases k <;> interval_cases d <;> interval_cases f <;> omega

theorem civilFromDays_eq (days era doe yoe doy mp : Int)
    (hera : era = (days + 306) / 146097)
    (hdoe : doe = days + 306 - era * 146097)
    (hyoe : yoe = (doe - doe / 1460 + doe / 36524 - doe / 146096) / 365)
    (hdoy : doy = doe - (365 * yoe + yoe / 4 - yoe / 100))
    (hmp : mp = (5 * doy + 2) / 153) :
    civilFromDays days =
      (if (if mp < 10 then mp + 3 else mp - 9) ≤ 2 then yoe + era * 400 + 1 else yoe + era * 400,
        (if mp < 10 then mp + 3 else mp - 9).toNat, (doy - (153 * mp + 2) / 5 + 1).toNat) := by
  subst hera hdoe hyoe hdoy hmp
  rfl

theorem civil_roundtrip (days : Int) :
    1 ≤ (civilFromDays days).2.1 ∧ (civilFromDays days).2.1 ≤ 12 ∧
    1 ≤ (civilFromDays days).2.2 ∧
    (civilFromDays days).2.2 ≤ daysIn (civilFromDays days).2.1 (civilFromDays days).1 ∧
    daysFromCivil (civilFromDays days).1 (civilFromDays days).2.1 (civilFromDays days).2.2 =
      days := by
  obtain ⟨era, hera⟩ : ∃ era, era = (days + 306) / 146097 := ⟨_, rfl⟩
  obtain ⟨doe, hdoe⟩ : ∃ doe, doe = days + 306 - era * 146097 := ⟨_, rfl⟩
  obtain ⟨yoe, hyoe⟩ :
      ∃ yoe, yoe = (doe - doe / 1460 + doe / 36524 - doe / 146096) / 365 := ⟨_, rfl⟩
  obtain ⟨doy, hdoy⟩ : ∃ doy, doy = doe - (365 * yoe + yoe / 4 - yoe / 100) := ⟨_, rfl⟩
  obtain ⟨mp, hmp⟩ : ∃ mp, mp = (5 * doy + 2) / 153 := ⟨_, rfl⟩
  rw [civilFromDays_eq days era doe yoe doy mp hera hdoe hyoe hdoy hmp]
  have hd0 : 0 ≤ doe ∧ doe ≤ 146096 := by omega
  obtain ⟨hy0, hy1, hdy0, hdy1, hleap⟩ := era_facts doe yoe doy hd0.1 hd0.2 hyoe hdoy
  have hmp' : 0 ≤ mp ∧ mp ≤ 11 := by omega
  obtain ⟨hmp0, hmp1⟩ := hmp'
  have hdpos : 1 ≤ doy - (153 * mp + 2) / 5 + 1 := by omega
  obtain ⟨dn, hdn⟩ : ∃ dn : Nat, (dn : Int) = doy - (153 * mp + 2) / 5 + 1 :=
    ⟨(doy - (153 * mp + 2) / 5 + 1).toNat, by omega⟩
  have hdn' : (doy - (153 * mp + 2) / 5 + 1).toNat = dn := by omega
  rw [hdn']
  have hq : (yoe + era * 400) / 400 = era := by omega
  clear hyoe hdn'
  interval_cases mp
  all_goals simp [daysFromCivil, daysIn, isLeap, hq]
  all_goals try split_ifs
  all_goals omega

theorem toDigitsCore_append (fuel n : Nat) (ds : List Char) :
    Nat.toDigitsCore 10 fuel n ds = Nat.toDigitsCore 10 fuel n [] ++ ds := by
  induction fuel generalizing n ds with
  | zero => simp [Nat.toDigitsCore]
  | succ fuel ih =>
    simp only [Nat.toDigitsCore]
    split
    · simp
    · rw [ih (n / 10) (Nat.digitChar (n % 10) :: ds), ih (n / 10) [Nat.digitChar (n % 10)]]
      simp

theorem toDigitsCore_fuel (fuel fuel' n : Nat) (h : n < fuel) (h' : n < fuel') :
    Nat.toDigitsCore 10 fuel n [] = Nat.toDigitsCore 10 fuel' n [] := by
  induction fuel generalizing n fuel' with
  | zero => omega
  | succ fuel ih =>
    cases fuel' with
    | zero => omega
    | succ fuel' =>
      simp only [Nat.toDigitsCore]
      split
      · rfl
      · rename_i hn
        rw [toDigitsCore_append fuel, toDigitsCore_append fuel',
          ih fuel' (n / 10) (by omega) (by omega)]

theorem toDigits_lt (n : Nat) (h : n < 10) : Nat.toDigits 10 n = [Nat.digitChar n] := by
  have h0 : n / 10 = 0 := by omega
  have h1 : n % 10 = n := by omega
  simp [Nat.toDigits, Nat.toDigitsCore, h0, h1]

theorem toDigits_ge (n : Nat) (h : 10 ≤ n) :
    Nat.toDigits 10 n = Nat.toDigits 10 (n / 10) ++ [Nat.digitChar (n % 10)] := by
  have h0 : n / 10 ≠ 0 := by omega
  have e : Nat.toDigits 10 n = Nat.toDigitsCore 10 n (n / 10) [Nat.digitChar (n % 10)] := by
    show Nat.toDigitsCore 10 (n + 1) n [] = _
    rw [Nat.toDigitsCore]
    simp [h0]
  rw [e, toDigitsCore_append, toDigitsCore_fuel n (n / 10 + 1) (n / 10) (by omega) (by omega)]
  rfl

theorem digitChar_isDigit : ∀ k, k < 10 → (Nat.digitChar k).isDigit = true := by decide

theorem digitVal_digitChar : ∀ k, k < 10 → digitVal (Nat.digitChar k) = k := by decide

theorem appendInt_natCast (n w : Nat) :
    appendInt (n : Int) w =
      List.replicate (w - (Nat.toDigits 10 n).length) '0' ++ Nat.toDigits 10 n := by
  have hneg : ¬ ((n : Int) < 0) := by omega
  simp [appendInt, hneg]

theorem appendInt_two (n : Nat) (h : n < 100) :
    appendInt (n : Int) 2 = [Nat.digitChar (n / 10), Nat.digitChar (n % 10)] := by
  rw [appendInt_natCast]
  by_cases h10 : n < 10
  · have h0 : n / 10 = 0 := by omega
    have h1 : n % 10 = n := by omega
    rw [toDigits_lt n h10, h0, h1]
    rfl
  · rw [toDigits_ge n (by omega), toDigits_lt (n / 10) (by omega)]
    rfl

theorem appendInt_four (n : Nat) (h : n < 10000) :
    appendInt (n : Int) 4 =
      [Nat.digitChar (n / 1000), Nat.digitChar (n / 100 % 10), Nat.digitChar (n / 10 % 10),
        Nat.digitChar (n % 10)] := by
  rw [appendInt_natCast]
  by_cases h10 : n < 10
  · have e1 : n / 1000 = 0 := by omega
    have e2 : n / 100 % 10 = 0 := by omega
    have e3 : n / 10 % 10 = 0 := by omega
    have e4 : n % 10 = n := by omega
    rw [toDigits_lt n h10, e1, e2, e3, e4]
    rfl
  · by_cases h100 : n < 100
    · have e1 : n / 1000 = 0 := by omega
      have e2 : n / 100 % 10 = 0 := by omega
      have e3 : n / 10 % 10 = n / 10 := by omega
      rw [toDigits_ge n (by omega), toDigits_lt (n / 10) (by omega), e1, e2, e3]
      rfl
    · by_cases h1000 : n < 1000
      · have e1 : n / 1000 = 0 := by omega
        have e2 : n / 100 % 10 = n / 10 / 10 := by omega
        rw [toDigits_ge n (by omega), toDigits_ge (n / 10) (by omega),
          toDigits_lt (n / 10 / 10) (by omega), e1, e2]
        rfl
      · have e1 : n / 1000 = n / 10 / 10 / 10 := by omega
        have e2 : n / 100 % 10 = n / 10 / 10 % 10 := by omega
        rw [toDigits_ge n (by omega), toDigits_ge (n / 10) (by omega),
          toDigits_ge (n / 10 / 10) (by omega), toDigits_lt (n / 10 / 10 / 10) (by omega),
          e1, e2]
        rfl

theorem getnum_appendInt (n : Nat) (h : n < 100) (rest : List Char) (fixed : Bool) :
    getnum (appendInt (n : Int) 2 ++ rest) fixed = some (n, rest) := by
  have h1 := digitChar_isDigit (n / 10) (by omega)
  have h2 := digitChar_isDigit (n % 10) (by omega)
  have v1 := digitVal_digitChar (n / 10) (by omega)
  have v2 := digitVal_digitChar (n % 10) (by omega)
  rw [appendInt_two n h]
  simp only [List.cons_append, List.nil_append, getnum, h1, h2, v1, v2]
  simp
  omega

theorem parseYear_appendInt (n : Nat) (h : n < 10000) (rest : List Char) :
    parseYear (appendInt (n : Int) 4 ++ rest) = some (n, rest) := by
  have h1 := digitChar_isDigit (n / 1000) (by omega)
  have h2 := digitChar_isDigit (n / 100 % 10) (by omega)
  have h3 := digitChar_isDigit (n / 10 % 10) (by omega)
  have h4 := digitChar_isDigit (n % 10) (by omega)
  have v1 := digitVal_digitChar (n / 1000) (by omega)
  have v2 := digitVal_digitChar (n / 100 % 10) (by omega)
  have v3 := digitVal_digitChar (n / 10 % 10) (by omega)
  have v4 := digitVal_digitChar (n % 10) (by omega)
  rw [appendInt_four n h]
  simp only [List.cons_append, List.nil_append, parseYear, h1, h2, h3, h4, v1, v2, v3, v4]
  simp
  omega

theorem skipChar_cons (c : Char) (rest : List Char) : skipChar c (c :: rest) = some rest := by
  simp [skipChar]

theorem parseDate_layout (y mo d : Nat) (rest : List Char)
    (hy : y < 10000) (hmo1 : 1 ≤ mo) (hmo : mo ≤ 12) (hd : d < 100) :
    parseDate (appendInt (y : Int) 4 ++ ('-' :: (appendInt (mo : Int) 2 ++ ('-' ::
      (appendInt (d : Int) 2 ++ rest))))) = some (y, mo, d, rest) := by
  have hmo' : ¬ (mo = 0 ∨ 12 < mo) := by omega
  simp [parseDate, parseYear_appendInt y hy, skipChar_cons, getnum_appendInt mo (by omega),
    getnum_appendInt d hd, hmo']

theorem parseClock_layout (h mi s : Nat) (zone : List Char)
    (hh : h < 24) (hmi : mi < 60) (hs : s < 60)
    (hfrac : parseFraction zone = (0, zone)) :
    parseClock (appendInt (h : Int) 2 ++ (':' :: (appendInt (mi : Int) 2 ++ (':' ::
      (appendInt (s : Int) 2 ++ zone))))) = some (h, mi, s, 0, zone) := by
  have hh' : ¬ (24 ≤ h) := by omega
  have hmi' : ¬ (60 ≤ mi) := by omega
  have hs' : ¬ (60 ≤ s) := by omega
  simp [parseClock, skipChar_cons, getnum_appendInt h (by omega),
    getnum_appendInt mi (by omega), getnum_appendInt s (by omega), hfrac, hh', hmi', hs']

/-- Parsing a text in the shape of the layout, up to the zone. -/
theorem parse_layout (y mo d h mi s : Nat) (zone : List Char)
    (hy : y < 10000) (hmo1 : 1 ≤ mo) (hmo : mo ≤ 12) (hd : d < 100)
    (hh : h < 24) (hmi : mi < 60) (hs : s < 60)
    (hfrac : parseFraction zone = (0, zone)) :
    Parse (String.mk (appendInt (y : Int) 4 ++ ('-' :: (appendInt (mo : Int) 2 ++ ('-' ::
      (appendInt (d : Int) 2 ++ ('T' :: (appendInt (h : Int) 2 ++ (':' ::
      (appendInt (mi : Int) 2 ++ (':' :: (appendInt (s : Int) 2 ++ zone)))))))))))) =
      (parseZone zone).bind fun zr =>
        if !zr.2.isEmpty then none
        else if d < 1 || d > daysIn mo y then none
        else some ⟨(Date y mo d h mi s 0).sec - zr.1, 0, zr.1⟩ := by
  simp only [Parse, parseDate_layout y mo d _ hy hmo1 hmo hd, Option.some_bind, skipChar_cons,
    parseClock_layout h mi s zone hh hmi hs hfrac]
  rfl

theorem toDigits_all_digits (n : Nat) : ∀ c ∈ Nat.toDigits 10 n, c.isDigit = true := by
  induction n using Nat.strong_induction_on with
  | _ n ih =>
    by_cases h : n < 10
    · rw [toDigits_lt n h]
      intro c hc
      rw [List.mem_singleton] at hc
      rw [hc]
      exact digitChar_isDigit n h
    · rw [toDigits_ge n (by omega)]
      intro c hc
      rw [List.mem_append, List.mem_singleton] at hc
      rcases hc with hc | hc
      · exact ih (n / 10) (by omega) c hc
      · rw [hc]
        exact digitChar_isDigit (n % 10) (by omega)

theorem toDigits_length_pos (n : Nat) : 1 ≤ (Nat.toDigits 10 n).length := by
  by_cases h : n < 10
  · rw [toDigits_lt n h]
    simp
  · rw [toDigits_ge n (by omega)]
    simp

theorem toDigits_length_ge (n : Nat) (h : 10 ≤ n) :
    (Nat.toDigits 10 n).length = (Nat.toDigits 10 (n / 10)).length + 1 := by
  rw [toDigits_ge n h]
  simp

theorem appendInt_of_long (n w : Nat) (h : w ≤ (Nat.toDigits 10 n).length) :
    appendInt (n : Int) w = Nat.toDigits 10 n := by
  rw [appendInt_natCast]
  have h0 : w - (Nat.toDigits 10 n).length = 0 := by omega
  simp [h0]

theorem digit_ne_colon (c : Char) (h : c.isDigit = true) : (c != ':') = true := by
  have : c ≠ ':' := by
    intro hc
    rw [hc] at h
    exact absurd h (by decide)
  simpa using this

theorem parseYear_minus (l : List Char) : parseYear ('-' :: l) = none := by
  rcases l with _ | ⟨b, _ | ⟨c, _ | ⟨d, rest⟩⟩⟩ <;> simp [parseYear]

/-- A year of five or more digits does not parse: the layout wants the hyphen
after four digits. -/
theorem parseDate_long_year (n : Nat) (h : 10000 ≤ n) (rest : List Char) :
    parseDate (appendInt (n : Int) 4 ++ ('-' :: rest)) = none := by
  have hlen : 5 ≤ (Nat.toDigits 10 n).length := by
    have h1 := toDigits_length_ge n (by omega)
    have h2 := toDigits_length_ge (n / 10) (by omega)
    have h3 := toDigits_length_ge (n / 10 / 10) (by omega)
    have h4 := toDigits_length_ge (n / 10 / 10 / 10) (by omega)
    have h5 := toDigits_length_pos (n / 10 / 10 / 10 / 10)
    omega
  have hall := toDigits_all_digits n
  rw [appendInt_of_long n 4 (by omega)]
  rcases hd : Nat.toDigits 10 n with _ | ⟨c1, _ | ⟨c2, _ | ⟨c3, _ | ⟨c4, _ | ⟨c5, l⟩⟩⟩⟩⟩
  all_goals rw [hd] at hlen hall
  all_goals try (simp at hlen; done)
  have d1 := hall c1 (by simp)
  have d2 := hall c2 (by simp)
  have d3 := hall c3 (by simp)
  have d4 := hall c4 (by simp)
  have d5 : c5 ≠ '-' := by
    intro hc
    have h5 := hall c5 (by simp)
    rw [hc] at h5
    exact absurd h5 (by decide)
  simp [parseDate, parseYear, d1, d2, d3, d4, skipChar, d5]

theorem sign_cases (zone : Int) :
    ((if zone < 0 then '-' else '+') = '-' ∧ zone < 0) ∨
      ((if zone < 0 then '-' else '+') = '+' ∧ 0 ≤ zone) := by
  by_cases h : zone < 0
  · exact Or.inl ⟨by simp [h], h⟩
  · exact Or.inr ⟨by simp [h], by omega⟩

theorem parseFraction_formatZone (offset : Int) :
    parseFraction (formatZone offset) = (0, formatZone offset) := by
  unfold formatZone
  by_cases h0 : offset = 0
  · simp [h0, parseFraction]
  · have hb : (offset == 0) = false := by simpa using h0
    simp only [hb]
    rcases sign_cases (Int.tdiv offset 60) with ⟨hs, _⟩ | ⟨hs, _⟩ <;> rw [hs]
    · rcases hl : appendInt ((((Int.tdiv offset 60).natAbs / 60 : Nat) : Int)) 2 ++
        ':' :: appendInt ((((Int.tdiv offset 60).natAbs % 60 : Nat) : Int)) 2 with _ | ⟨d, l⟩ <;>
        simp [parseFraction]
    · rcases hl : appendInt ((((Int.tdiv offset 60).natAbs / 60 : Nat) : Int)) 2 ++
        ':' :: appendInt ((((Int.tdiv offset 60).natAbs % 60 : Nat) : Int)) 2 with _ | ⟨d, l⟩ <;>
        simp [parseFraction]

/-- The zone that `Format` writes parses back to the offset in whole minutes,
unless its hours exceed 24. -/
theorem parseZone_formatZone (offset : Int) :
    parseZone (formatZone offset) =
      if (Int.tdiv offset 60).natAbs / 60 ≤ 24 then some (60 * Int.tdiv offset 60, [])
      else none := by
  unfold formatZone
  by_cases h0 : offset = 0
  · subst h0
    simp [parseZone]
  · have hb : (offset == 0) = false := by simpa using h0
    simp only [hb]
    obtain ⟨z, hz⟩ : ∃ z, z = (Int.tdiv offset 60).natAbs := ⟨_, rfl⟩
    rw [← hz]
    have hmm : z % 60 < 100 := by omega
    have m1 := digitChar_isDigit (z % 60 / 10) (by omega)
    have m2 := digitChar_isDigit (z % 60 % 10) (by omega)
    have w1 := digitVal_digitChar (z % 60 / 10) (by omega)
    have w2 := digitVal_digitChar (z % 60 % 10) (by omega)
    rw [appendInt_two (z % 60) hmm]
    by_cases hhr : z / 60 < 100
    · have a1 := digitChar_isDigit (z / 60 / 10) (by omega)
      have a2 := digitChar_isDigit (z / 60 % 10) (by omega)
      have v1 := digitVal_digitChar (z / 60 / 10) (by omega)
      have v2 := digitVal_digitChar (z / 60 % 10) (by omega)
      have hv : z / 60 / 10 * 10 + z / 60 % 10 = z / 60 := by omega
      have hw : z % 60 / 10 * 10 + z % 60 % 10 = z % 60 := by omega
      have hm60 : ¬ (60 < z % 60) := by omega
      rw [appendInt_two (z / 60) hhr]
      rcases sign_cases (Int.tdiv offset 60) with ⟨hs, hneg⟩ | ⟨hs, hpos⟩ <;> rw [hs]
      · by_cases h24 : z / 60 ≤ 24
        · have h24' : ¬ (24 < z / 60) := by omega
          simp [parseZone, getnum, a1, a2, v1, v2, m1, m2, w1, w2, hv, hw, h24, h24', hm60]
          omega
        · have h24' : 24 < z / 60 := by omega
          simp [parseZone, getnum, a1, a2, v1, v2, m1, m2, w1, w2, hv, hw, h24, h24']
      · by_cases h24 : z / 60 ≤ 24
        · have h24' : ¬ (24 < z / 60) := by omega
          simp [parseZone, getnum, a1, a2, v1, v2, m1, m2, w1, w2, hv, hw, h24, h24', hm60]
          omega
        · have h24' : 24 < z / 60 := by omega
          simp [parseZone, getnum, a1, a2, v1, v2, m1, m2, w1, w2, hv, hw, h24, h24']
    · have h24 : ¬ (z / 60 ≤ 24) := by omega
      have hlen : 3 ≤ (Nat.toDigits 10 (z / 60)).length := by
        have h1 := toDigits_length_ge (z / 60) (by omega)
        have h2 := toDigits_length_ge (z / 60 / 10) (by omega)
        have h3 := toDigits_length_pos (z / 60 / 10 / 10)
        omega
      have hall := toDigits_all_digits (z / 60)
      rw [appendInt_of_long (z / 60) 2 (by omega)]
      simp only [h24, if_false]
      rcases hd : Nat.toDigits 10 (z / 60) with _ | ⟨c1, _ | ⟨c2, _ | ⟨c3, l⟩⟩⟩
      all_goals rw [hd] at hlen hall
      all_goals try (simp at hlen; done)
      have d3 := digit_ne_colon c3 (hall c3 (by simp))
      rcases sign_cases (Int.tdiv offset 60) with ⟨hs, _⟩ | ⟨hs, _⟩ <;> rw [hs] <;>
        rcases l with _ | ⟨c4, _ | ⟨c5, l⟩⟩ <;> simp [parseZone, d3]

theorem format_eq (t : Time) (year : Int) (month day : Nat)
    (hc : civilFromDays (localSeconds t / 86400) = (year, month, day)) :
    Format t = String.mk (appendInt year 4 ++ ('-' :: (appendInt (month : Int) 2 ++ ('-' ::
      (appendInt (day : Int) 2 ++ ('T' :: (appendInt (localSeconds t % 86400 / 3600) 2 ++
      (':' :: (appendInt (localSeconds t % 86400 % 3600 / 60) 2 ++ (':' ::
      (appendInt (localSeconds t % 86400 % 60) 2 ++ formatZone t.offset)))))))))) ) := by
  simp only [Format, hc, List.append_assoc, List.cons_append]

theorem daysIn_le (month : Nat) (year : Int) : daysIn month year ≤ 31 := by
  unfold daysIn
  split_ifs <;> omega

/-- What `Parse` makes of the text that `Format` writes: the instant of the civil
time written, in the zone written, when the year has four digits and the zone
at most 24 hours; a parse error otherwise. -/
theorem parse_format (t : Time) :
    Parse (Format t) =
      if 0 ≤ (civilFromDays (localSeconds t / 86400)).1 ∧
          (civilFromDays (localSeconds t / 86400)).1 ≤ 9999 ∧
          (Int.tdiv t.offset 60).natAbs / 60 ≤ 24 then
        some ⟨localSeconds t - 60 * Int.tdiv t.offset 60, 0, 60 * Int.tdiv t.offset 60⟩
      else none := by
  obtain ⟨hm1, hm12, hd1, hdm, hrt⟩ := civil_roundtrip (localSeconds t / 86400)
  rcases hc : civilFromDays (localSeconds t / 86400) with ⟨year, month, day⟩
  rw [hc] at hm1 hm12 hd1 hdm hrt
  simp only at hm1 hm12 hd1 hdm hrt
  rw [format_eq t year month day hc]
  simp only
  by_cases hneg : year < 0
  · have hcond : ¬ (0 ≤ year ∧ year ≤ 9999 ∧ (Int.tdiv t.offset 60).natAbs / 60 ≤ 24) := by
      omega
    rw [if_neg hcond]
    simp [Parse, parseDate, appendInt, hneg, parseYear_minus]
  · obtain ⟨yN, hyN⟩ : ∃ yN : Nat, (yN : Int) = year := ⟨year.toNat, by omega⟩
    subst hyN
    by_cases hbig : 10000 ≤ yN
    · have hcond : ¬ (0 ≤ (yN : Int) ∧ (yN : Int) ≤ 9999 ∧
          (Int.tdiv t.offset 60).natAbs / 60 ≤ 24) := by omega
      rw [if_neg hcond]
      simp [Parse, parseDate_long_year yN hbig]
    · have hy : yN < 10000 := by omega
      have hdl := daysIn_le month (yN : Int)
      have hr0 : 0 ≤ localSeconds t % 86400 ∧ localSeconds t % 86400 < 86400 := by
        omega
      obtain ⟨rem, hrem⟩ : ∃ rem, rem = localSeconds t % 86400 := ⟨_, rfl⟩
      rw [← hrem] at hr0 ⊢
      obtain ⟨hN, hhN⟩ : ∃ hN : Nat, (hN : Int) = rem / 3600 := ⟨(rem / 3600).toNat, by omega⟩
      obtain ⟨miN, hmiN⟩ : ∃ miN : Nat, (miN : Int) = rem % 3600 / 60 :=
        ⟨(rem % 3600 / 60).toNat, by omega⟩
      obtain ⟨sN, hsN⟩ : ∃ sN : Nat, (sN : Int) = rem % 60 := ⟨(rem % 60).toNat, by omega⟩
      rw [← hhN, ← hmiN, ← hsN]
      rw [parse_layout yN month day hN miN sN (formatZone t.offset) hy hm1 hm12 (by omega)
        (by omega) (by omega) (by omega) (parseFraction_formatZone t.offset),
        parseZone_formatZone t.offset]
      have hday : ¬ (day < 1 ∨ day > daysIn month (yN : Int)) := by omega
      by_cases h24 : (Int.tdiv t.offset 60).natAbs / 60 ≤ 24
      · have hcond : 0 ≤ (yN : Int) ∧ (yN : Int) ≤ 9999 ∧
            (Int.tdiv t.offset 60).natAbs / 60 ≤ 24 := ⟨by omega, by omega, h24⟩
        rw [if_pos hcond, if_pos h24]
        simp [hday, Date, hrt]
        omega
      · have hcond : ¬ (0 ≤ (yN : Int) ∧ (yN : Int) ≤ 9999 ∧
            (Int.tdiv t.offset 60).natAbs / 60 ≤ 24) := fun hx => h24 hx.2.2
        rw [if_neg hcond, if_neg h24]
        rfl


theorem daysFromCivil_le (year : Int) (month day : Nat) (hy : year ≤ 9999)
    (hm : month ≤ 12) (hd : day ≤ 31) : daysFromCivil year month day ≤ 3652425 := by
  unfold daysFromCivil
  simp only
  split_ifs <;> omega

/-- A civil time within the years up to 9999, in a zone of less than 25 hours, is
the one of the instant: the 64-bit sum has not wrapped. -/
theorem localSeconds_eq (t : Time) (hy : t.Year ≤ 9999)
    (hoff : -90000 < t.offset ∧ t.offset < 90000) : localSeconds t = t.sec + t.offset := by
  obtain ⟨hm1, hm12, hd1, hdm, hrt⟩ := civil_roundtrip (localSeconds t / 86400)
  have hdl := daysIn_le (civilFromDays (localSeconds t / 86400)).2.1
    (civilFromDays (localSeconds t / 86400)).1
  have hle := daysFromCivil_le (civilFromDays (localSeconds t / 86400)).1
    (civilFromDays (localSeconds t / 86400)).2.1 (civilFromDays (localSeconds t / 86400)).2.2
    hy hm12 (by omega)
  rw [hrt] at hle
  unfold localSeconds internalToAbsolute at hle ⊢
  split_ifs at hle ⊢ with hv
  · omega
  · rfl

/-- The 64-bit sum wraps for the earliest instant that `time.Unix` can hold,
`time.Unix(math.MinInt64, 0).UTC()`. -/
theorem format_wraps :
    Format ⟨-9223371974719179008, 0, 0⟩ = "292277026596-12-04T15:30:08Z" := by
  decide

end Time

theorem tdiv_sixty (x : Int) :
    Int.tdiv x 60 = if 0 ≤ x then x / 60 else -((-x) / 60) := by
  by_cases hx : 0 ≤ x
  · rw [if_pos hx]
    exact Int.tdiv_eq_ediv hx (by decide)
  · rw [if_neg hx]
    have h1 : x = -(-x) := by omega
    rw [h1, Int.neg_tdiv, Int.tdiv_eq_ediv (by omega) (by decide)]
    simp

/-- The expiry read back from a record written by `SetToken` with an expiry that
is not the zero time. -/
theorem storedExpiry_after_setToken (h : Hash) (tok : String) (t : Time)
    (hz : t.IsZero = false) :
    storedExpiry ((h.set "token_expires" (if t.IsZero then "" else t.Format)).set "token" tok) =
      if 0 ≤ t.Year ∧ t.Year ≤ 9999 ∧ (Int.tdiv t.offset 60).natAbs / 60 ≤ 24 then
        ⟨Time.localSeconds t - 60 * Int.tdiv t.offset 60, 0, 60 * Int.tdiv t.offset 60⟩
      else Time.zero := by
  have hl : List.lookup "token_expires"
      ((h.set "token_expires" (if t.IsZero then "" else t.Format)).set "token" tok) =
      some t.Format := by
    rw [lookup_set_ne _ _ _ _ (by decide), lookup_set_self, hz]
    rfl
  unfold storedExpiry
  simp only [redisKey, hl, Time.parse_format t, Time.Year]
  by_cases hne : t.Format = ""
  · have hp := Time.parse_format t
    rw [hne, parse_empty] at hp
    simp only [hne]
    split_ifs at hp ⊢ <;> simp_all
  · have hb : (t.Format != "") = true := by simpa using hne
    simp only [hb, if_true]
    split_ifs <;> rfl

/-- C18, amended. `SetToken` stores the expiry to the whole second: for a
non-empty token and an expiry `t` with a year within 1..9999, a zone offset of
a whole number of minutes and less than 25 hours, and a truncation to the
second that is not the zero time, on a record without key, `GetToken` at `now`
returns `(tok, nil)` when `t` truncated to the second is strictly after `now`
and `ErrGatewayNoValidToken` when it is not. So the token is never served at or
after `t`, and with a fraction of a second in `t` it is rejected at the whole
second before `t`. -/
theorem setToken_whole_second_expiry (r : Redis) (s : Store) (gatewayID tok : String)
    (t now : Time) (writeFault : Option Err)
    (htok : tok ≠ "") (hnz : t.IsZero = false)
    (hyear : 1 ≤ t.Year ∧ t.Year ≤ 9999)
    (hmin : t.offset % 60 = 0) (hday : -90000 < t.offset ∧ t.offset < 90000)
    (htr : t.truncSecond.IsZero = false)
    (hnokey : s.field (r.pfx ++ gatewayID) "key" = none) :
    (t.truncSecond.After now = true →
      r.GetToken (r.SetToken s none gatewayID tok t).1 now none writeFault gatewayID =
        ⟨tok, none, (r.SetToken s none gatewayID tok t).1, []⟩) ∧
    (t.truncSecond.After now = false →
      r.GetToken (r.SetToken s none gatewayID tok t).1 now none writeFault gatewayID =
        ⟨"", some Err.ErrGatewayNoValidToken, (r.SetToken s none gatewayID tok t).1, []⟩) ∧
    (t.After now = false →
      r.GetToken (r.SetToken s none gatewayID tok t).1 now none writeFault gatewayID =
        ⟨"", some Err.ErrGatewayNoValidToken, (r.SetToken s none gatewayID tok t).1, []⟩) ∧
    (0 < t.nsec →
      t.After t.truncSecond = true ∧
      r.GetToken (r.SetToken s none gatewayID tok t).1 t.truncSecond none writeFault gatewayID =
        ⟨"", some Err.ErrGatewayNoValidToken, (r.SetToken s none gatewayID tok t).1, []⟩) := by
  have hrec := setToken_record r s gatewayID tok t
  have hsec : t.sec ≠ 0 := by
    intro h0
    simp [Time.truncSecond, Time.IsZero, h0] at htr
  have htd : 60 * Int.tdiv t.offset 60 = t.offset := by
    rw [tdiv_sixty]
    split_ifs <;> omega
  have h24 : (Int.tdiv t.offset 60).natAbs / 60 ≤ 24 := by
    have := tdiv_sixty t.offset
    split_ifs at this <;> omega
  have hexp := storedExpiry_after_setToken ((s (r.pfx ++ gatewayID)).getD []) tok t hnz
  have hcond : 0 ≤ t.Year ∧ t.Year ≤ 9999 ∧ (Int.tdiv t.offset 60).natAbs / 60 ≤ 24 :=
    ⟨by omega, hyear.2, h24⟩
  rw [if_pos hcond, htd, Time.localSeconds_eq t hyear.2 hday] at hexp
  have hexp' : storedExpiry ((((s (r.pfx ++ gatewayID)).getD []).set "token_expires"
      (if t.IsZero then "" else t.Format)).set "token" tok) = t.truncSecond := by
    rw [hexp]
    simp [Time.truncSecond]
  have hne : (((s (r.pfx ++ gatewayID)).getD []).set "token_expires"
      (if t.IsZero then "" else t.Format)).set "token" tok ≠ [] := by
    simp [Hash.set]
  have hkey : List.lookup "key" ((((s (r.pfx ++ gatewayID)).getD []).set "token_expires"
      (if t.IsZero then "" else t.Format)).set "token" tok) = none := by
    rw [lookup_set_ne _ _ _ _ (by decide), lookup_set_ne _ _ _ _ (by decide)]
    cases hs : s (r.pfx ++ gatewayID) with
    | none => rfl
    | some h0 => simpa [Store.field, hs] using hnokey
  have hserved : ∀ now' : Time, t.truncSecond.After now' = true →
      r.GetToken (r.SetToken s none gatewayID tok t).1 now' none writeFault gatewayID =
        ⟨tok, none, (r.SetToken s none gatewayID tok t).1, []⟩ := by
    intro now' ha
    apply getToken_of_storedToken r _ now' writeFault gatewayID _ tok hrec
    unfold storedToken
    rw [hexp']
    simp [redisKey, lookup_set_self, htok, ha]
  have hrejected : ∀ now' : Time, t.truncSecond.After now' = false →
      r.GetToken (r.SetToken s none gatewayID tok t).1 now' none writeFault gatewayID =
        ⟨"", some Err.ErrGatewayNoValidToken, (r.SetToken s none gatewayID tok t).1, []⟩ := by
    intro now' ha
    rw [getToken_eq_steps r _ now' writeFault gatewayID _ hrec hne]
    have hst : storedToken ((((s (r.pfx ++ gatewayID)).getD []).set "token_expires"
        (if t.IsZero then "" else t.Format)).set "token" tok) now' = none := by
      unfold storedToken
      rw [hexp']
      simp [redisKey, lookup_set_self, htr, ha]
    rw [hst]
    unfold exchangeStep
    simp only [redisKey, hkey]
  refine ⟨hserved now, hrejected now, ?_, ?_⟩
  · intro ha
    apply hrejected now
    unfold Time.After at ha ⊢
    simp only [Time.truncSecond] at ha ⊢
    simp only [Bool.or_eq_false_iff, Bool.and_eq_false_iff, decide_eq_false_iff_not,
      beq_eq_false_iff_ne] at ha ⊢
    omega
  · intro hn
    refine ⟨?_, hrejected _ ?_⟩
    · simp [Time.After, Time.truncSecond, hn]
    · simp [Time.After, Time.truncSecond]

/-- A concrete instance: an expiry of 2030-01-01T01:00:00.5+01:00, read in 2025
from a store that held nothing. -/
theorem setToken_whole_second_expiry_witness :
    ((Time.mk 64029052800 500000000 3600).truncSecond.After sampleNow = true →
      sampleRedis.GetToken
          (sampleRedis.SetToken (fun _ => none) none "gw1" "tok"
            (Time.mk 64029052800 500000000 3600)).1 sampleNow none none "gw1" =
        ⟨"tok", none, (sampleRedis.SetToken (fun _ => none) none "gw1" "tok"
            (Time.mk 64029052800 500000000 3600)).1, []⟩) ∧
    ((Time.mk 64029052800 500000000 3600).truncSecond.After sampleNow = false →
      sampleRedis.GetToken
          (sampleRedis.SetToken (fun _ => none) none "gw1" "tok"
            (Time.mk 64029052800 500000000 3600)).1 sampleNow none none "gw1" =
        ⟨"", some Err.ErrGatewayNoValidToken,
          (sampleRedis.SetToken (fun _ => none) none "gw1" "tok"
            (Time.mk 64029052800 500000000 3600)).1, []⟩) ∧
    ((Time.mk 64029052800 500000000 3600).After sampleNow = false →
      sampleRedis.GetToken
          (sampleRedis.SetToken (fun _ => none) none "gw1" "tok"
            (Time.mk 64029052800 500000000 3600)).1 sampleNow none none "gw1" =
        ⟨"", some Err.ErrGatewayNoValidToken,
          (sampleRedis.SetToken (fun _ => none) none "gw1" "tok"
            (Time.mk 64029052800 500000000 3600)).1, []⟩) ∧
    (0 < (Time.mk 64029052800 500000000 3600).nsec →
      (Time.mk 64029052800 500000000 3600).After
          (Time.mk 64029052800 500000000 3600).truncSecond = true ∧
      sampleRedis.GetToken
          (sampleRedis.SetToken (fun _ => none) none "gw1" "tok"
            (Time.mk 64029052800 500000000 3600)).1
          (Time.mk 64029052800 500000000 3600).truncSecond none none "gw1" =
        ⟨"", some Err.ErrGatewayNoValidToken,
          (sampleRedis.SetToken (fun _ => none) none "gw1" "tok"
            (Time.mk 64029052800 500000000 3600)).1, []⟩) :=
  setToken_whole_second_expiry sampleRedis (fun _ => none) "gw1" "tok"
    (Time.mk 64029052800 500000000 3600) sampleNow none
    (by decide) (by decide) (by decide) (by decide) (by decide) (by decide) rfl

/-- C18 as stated fails outside whole-minute zones of less than 25 hours. An
expiry at 2030-01-01T00:00:00Z in a zone 30 seconds east of UTC is stored as
`2030-01-01T00:00:30+00:00`, so ten seconds after the expiry the token is still
served; an expiry in a zone 26 hours east is stored with the zone `+26:00`,
which does not parse, so the token never expires. -/
theorem setToken_odd_zone_expiry_served :
    ((Time.mk 64029052800 0 30).IsZero = false ∧
      (1 ≤ (Time.mk 64029052800 0 30).Year ∧ (Time.mk 64029052800 0 30).Year ≤ 9999) ∧
      (Time.mk 64029052800 0 30).truncSecond.IsZero = false ∧
      (Time.mk 64029052800 0 30).truncSecond.After (Time.mk 64029052810 0 0) = false ∧
      (Time.mk 64029052800 0 30).After (Time.mk 64029052810 0 0) = false ∧
      ((NewRedis "").GetToken
        ((NewRedis "").SetToken (fun _ => none) none "gw1" "tok" (Time.mk 64029052800 0 30)).1
        (Time.mk 64029052810 0 0) none none "gw1").token = "tok" ∧
      ((NewRedis "").GetToken
        ((NewRedis "").SetToken (fun _ => none) none "gw1" "tok" (Time.mk 64029052800 0 30)).1
        (Time.mk 64029052810 0 0) none none "gw1").err = none) ∧
    ((Time.mk 64029052800 0 93600).IsZero = false ∧
      (1 ≤ (Time.mk 64029052800 0 93600).Year ∧ (Time.mk 64029052800 0 93600).Year ≤ 9999) ∧
      (Time.mk 64029052800 0 93600).truncSecond.IsZero = false ∧
      (Time.mk 64029052800 0 93600).truncSecond.After (Time.mk 64029052810 0 0) = false ∧
      ((NewRedis "").GetToken
        ((NewRedis "").SetToken (fun _ => none) none "gw1" "tok"
          (Time.mk 64029052800 0 93600)).1
        (Time.mk 64029052810 0 0) none none "gw1").token = "tok" ∧
      ((NewRedis "").GetToken
        ((NewRedis "").SetToken (fun _ => none) none "gw1" "tok"
          (Time.mk 64029052800 0 93600)).1
        (Time.mk 64029052810 0 0) none none "gw1").err = none) := by
  decide

/-- C20, amended. An exchanged token is cached: when `GetToken` obtains a
non-empty token `newtok` with expiry `exp` from the exchanger, the zone offset
of `exp` being not negative or a whole number of minutes, and the write
succeeds, then a following `GetToken` at a time strictly before `exp`
truncated to the second, or at any time when `exp` is the zero time, returns
`(newtok, nil)` with no exchange and the store as it was. -/
theorem getToken_caches_exchanged_token (r : Redis) (s : Store) (now₁ now₂ : Time)
    (writeFault₂ : Option Err) (gatewayID : String) (h : Hash) (K newtok : String)
    (exp : Time) (exchange : Exchanger)
    (hrec : s (r.pfx ++ gatewayID) = some h)
    (hno : NoUsableToken h now₁)
    (hkey : h.lookup "key" = some K) (hK : K ≠ "")
    (hreg : r.Exchanger = some exchange)
    (hex : exchange gatewayID K = (newtok, exp, none)) (hnew : newtok ≠ "")
    (hzone : 0 ≤ exp.offset ∨ exp.offset % 60 = 0)
    (hbefore : exp.IsZero = true ∨ exp.truncSecond.After now₂ = true) :
    (r.GetToken s now₁ none none gatewayID).token = newtok ∧
    (r.GetToken s now₁ none none gatewayID).err = none ∧
    r.GetToken (r.GetToken s now₁ none none gatewayID).store now₂ none writeFault₂ gatewayID =
      ⟨newtok, none, (r.GetToken s now₁ none none gatewayID).store, []⟩ := by
  have hne : h ≠ [] := by
    intro hnil
    rw [hnil] at hkey
    exact Option.noConfusion hkey
  have hstep : r.GetToken s now₁ none none gatewayID =
      ⟨newtok, none, (r.SetToken s none gatewayID newtok exp).1, [(gatewayID, K)]⟩ := by
    rw [getToken_exchange_step r s now₁ none gatewayID h hrec hne hno]
    simp [hkey, hreg, hex, hK]
  rw [hstep]
  refine ⟨rfl, rfl, ?_⟩
  have hrec' := setToken_record r s gatewayID newtok exp
  apply getToken_of_storedToken r _ now₂ writeFault₂ gatewayID _ newtok hrec'
  have hserve : ((storedExpiry ((((s (r.pfx ++ gatewayID)).getD []).set "token_expires"
      (if exp.IsZero then "" else exp.Format)).set "token" newtok)).IsZero ||
      (storedExpiry ((((s (r.pfx ++ gatewayID)).getD []).set "token_expires"
      (if exp.IsZero then "" else exp.Format)).set "token" newtok)).After now₂) = true := by
    cases hz : exp.IsZero with
    | true =>
      have hl : List.lookup "token_expires" ((((s (r.pfx ++ gatewayID)).getD []).set
          "token_expires" "").set "token" newtok) = some "" := by
        rw [lookup_set_ne _ _ _ _ (by decide), lookup_set_self]
      simp [storedExpiry, redisKey, hl, Time.zero, Time.IsZero]
    | false =>
      have hexp := storedExpiry_after_setToken ((s (r.pfx ++ gatewayID)).getD []) newtok exp hz
      rw [hz] at hexp
      rw [hexp]
      have hafter : exp.truncSecond.After now₂ = true := by
        rcases hbefore with hb | hb
        · rw [hz] at hb
          exact absurd hb (by decide)
        · exact hb
      have hsec : now₂.sec < exp.sec := by
        simp only [Time.After, Time.truncSecond, Bool.or_eq_true, Bool.and_eq_true,
          decide_eq_true_eq, beq_iff_eq] at hafter
        omega
      have htd : 0 ≤ exp.offset - 60 * Int.tdiv exp.offset 60 := by
        rw [tdiv_sixty]
        split_ifs <;> omega
      split_ifs with hcond
      · have hoff : -90000 < exp.offset ∧ exp.offset < 90000 := by
          have h24 := hcond.2.2
          have := tdiv_sixty exp.offset
          split_ifs at this <;> omega
        have hgt : Time.localSeconds exp - 60 * Int.tdiv exp.offset 60 > now₂.sec := by
          rw [Time.localSeconds_eq exp hcond.2.1 hoff]
          omega
        simp [Time.After, hgt]
      · simp [Time.zero, Time.IsZero]
  unfold storedToken
  simp only [redisKey, lookup_set_self]
  simp [hnew, hserve]

/-- A concrete instance: the sample exchanger, whose token expires in 2030, and a
second read in 2029. -/
theorem getToken_caches_exchanged_token_witness :
    (sampleRedis.GetToken (sampleStore [("key", "K")]) sampleNow none none "gw1").token =
      "newtok" ∧
    (sampleRedis.GetToken (sampleStore [("key", "K")]) sampleNow none none "gw1").err = none ∧
    sampleRedis.GetToken
        (sampleRedis.GetToken (sampleStore [("key", "K")]) sampleNow none none "gw1").store
        (Time.mk 64000000000 0 0) none none "gw1" =
      ⟨"newtok", none,
        (sampleRedis.GetToken (sampleStore [("key", "K")]) sampleNow none none "gw1").store,
        []⟩ :=
  getToken_caches_exchanged_token sampleRedis (sampleStore [("key", "K")]) sampleNow
    (Time.mk 64000000000 0 0) none "gw1" [("key", "K")] "K" "newtok"
    (Time.mk 64029052800 0 0) sampleExchanger
    (by decide) (Or.inl (by decide)) (by decide) (by decide) rfl (by decide) (by decide)
    (Or.inl (by decide)) (Or.inr (by decide))

/-- C20 as stated fails for an expiry in a zone with a negative seconds part: the
exchanger gives a token that expires at 2030-01-01T00:00:00Z, in a zone 30
seconds west of UTC; it is stored as `2029-12-31T23:59:30+00:00`, so twenty
seconds before the expiry the next `GetToken` invokes the exchanger again. -/
theorem getToken_west_zone_exchanges_again :
    westZoneExchanger "gw1" "K" = ("newtok", Time.mk 64029052800 0 (-30), none) ∧
    (((NewRedis "").SetExchanger (some westZoneExchanger)).GetToken
      (sampleStore [("key", "K")]) sampleNow none none "gw1").token = "newtok" ∧
    (((NewRedis "").SetExchanger (some westZoneExchanger)).GetToken
      (sampleStore [("key", "K")]) sampleNow none none "gw1").err = none ∧
    (Time.mk 64029052800 0 (-30)).truncSecond.After (Time.mk 64029052780 0 0) = true ∧
    (((NewRedis "").SetExchanger (some westZoneExchanger)).GetToken
      (((NewRedis "").SetExchanger (some westZoneExchanger)).GetToken
        (sampleStore [("key", "K")]) sampleNow none none "gw1").store
      (Time.mk 64029052780 0 0) none none "gw1").exchanges = [("gw1", "K")] := by
  decide

/-- C2. A record without a usable token (absent, empty or expired) and with a
non-empty `key` field `K`, an exchanger registered that answers
`Exchange(gatewayID, K)` with `(newtok, exp, nil)`: `GetToken` returns
`(newtok, nil)` after that one exchange, and the stored record then has
`token = newtok`, `key` still `K`, and `token_expires` the RFC 3339 rendering
of `exp`, empty for the zero time. The rendering is the text written by
`Format`; for an expiry with a year of four digits in a whole-minute zone of
less than 25 hours it is a non-empty text that reads back, by the RFC 3339
layout, as `exp` to the whole second in the zone of `exp`. -/
theorem getToken_exchanges_and_persists (r : Redis) (s : Store) (now : Time)
    (gatewayID : String) (h : Hash) (K newtok : String) (exp : Time) (exchange : Exchanger)
    (hrec : s (r.pfx ++ gatewayID) = some h)
    (hno : NoUsableToken h now)
    (hkey : h.lookup "key" = some K) (hK : K ≠ "")
    (hreg : r.Exchanger = some exchange)
    (hex : exchange gatewayID K = (newtok, exp, none)) :
    (r.GetToken s now none none gatewayID).token = newtok ∧
    (r.GetToken s now none none gatewayID).err = none ∧
    (r.GetToken s now none none gatewayID).exchanges = [(gatewayID, K)] ∧
    (r.GetToken s now none none gatewayID).store.field (r.pfx ++ gatewayID) "token" =
      some newtok ∧
    (r.GetToken s now none none gatewayID).store.field (r.pfx ++ gatewayID) "key" = some K ∧
    (r.GetToken s now none none gatewayID).store.field (r.pfx ++ gatewayID) "token_expires" =
      some (if exp.IsZero then "" else exp.Format) ∧
    (exp.IsZero = false → 0 ≤ exp.Year → exp.Year ≤ 9999 → exp.offset % 60 = 0 →
      -90000 < exp.offset → exp.offset < 90000 →
      ∃ text,
        (r.GetToken s now none none gatewayID).store.field (r.pfx ++ gatewayID)
          "token_expires" = some text ∧
        text ≠ "" ∧ Time.Parse text = some exp.truncSecond) := by
  have hne : h ≠ [] := by
    intro hnil
    rw [hnil] at hkey
    exact Option.noConfusion hkey
  have hstep : r.GetToken s now none none gatewayID =
      ⟨newtok, none, (r.SetToken s none gatewayID newtok exp).1, [(gatewayID, K)]⟩ := by
    rw [getToken_exchange_step r s now none gatewayID h hrec hne hno]
    simp [hkey, hreg, hex, hK]
  have hstored := setToken_record r s gatewayID newtok exp
  have hte : (r.SetToken s none gatewayID newtok exp).1.field (r.pfx ++ gatewayID)
      "token_expires" = some (if exp.IsZero then "" else exp.Format) := by
    simp only [Store.field, hstored, Option.bind]
    rw [lookup_set_ne _ _ _ _ (by decide), lookup_set_self]
  rw [hstep]
  refine ⟨rfl, rfl, rfl, ?_, ?_, hte, ?_⟩
  · simp only [Store.field, hstored, Option.bind]
    exact lookup_set_self _ _ _
  · simp only [Store.field, hstored, Option.bind]
    rw [lookup_set_ne _ _ _ _ (by decide), lookup_set_ne _ _ _ _ (by decide), hrec]
    exact hkey
  · intro hz hy0 hy1 hmin hlo hhi
    have htd : 60 * Int.tdiv exp.offset 60 = exp.offset := by
      rw [tdiv_sixty]
      split_ifs <;> omega
    have h24 : (Int.tdiv exp.offset 60).natAbs / 60 ≤ 24 := by
      have := tdiv_sixty exp.offset
      split_ifs at this <;> omega
    have hcond : 0 ≤ (Time.civilFromDays (Time.localSeconds exp / 86400)).1 ∧
        (Time.civilFromDays (Time.localSeconds exp / 86400)).1 ≤ 9999 ∧
        (Int.tdiv exp.offset 60).natAbs / 60 ≤ 24 := ⟨hy0, hy1, h24⟩
    have hp := Time.parse_format exp
    rw [if_pos hcond, htd, Time.localSeconds_eq exp hy1 ⟨hlo, hhi⟩] at hp
    refine ⟨exp.Format, ?_, ?_, ?_⟩
    · rw [hte, hz]
      rfl
    · intro hempty
      rw [hempty, parse_empty] at hp
      exact Option.noConfusion hp
    · rw [hp]
      simp [Time.truncSecond]

/-- A concrete instance: a token that expired in 2020 is replaced through the
sample exchanger, and the record then holds the text `2030-01-01T00:00:00Z`. -/
theorem getToken_exchanges_and_persists_witness :
    (sampleRedis.GetToken
        (sampleStore [("token", "tok"), ("token_expires", "2020-01-01T00:00:00Z"), ("key", "K")])
        sampleNow none none "gw1").token = "newtok" ∧
    (sampleRedis.GetToken
        (sampleStore [("token", "tok"), ("token_expires", "2020-01-01T00:00:00Z"), ("key", "K")])
        sampleNow none none "gw1").err = none ∧
    (sampleRedis.GetToken
        (sampleStore [("token", "tok"), ("token_expires", "2020-01-01T00:00:00Z"), ("key", "K")])
        sampleNow none none "gw1").exchanges = [("gw1", "K")] ∧
    (sampleRedis.GetToken
        (sampleStore [("token", "tok"), ("token_expires", "2020-01-01T00:00:00Z"), ("key", "K")])
        sampleNow none none "gw1").store.field (sampleRedis.pfx ++ "gw1") "token" =
      some "newtok" ∧
    (sampleRedis.GetToken
        (sampleStore [("token", "tok"), ("token_expires", "2020-01-01T00:00:00Z"), ("key", "K")])
        sampleNow none none "gw1").store.field (sampleRedis.pfx ++ "gw1") "key" = some "K" ∧
    (sampleRedis.GetToken
        (sampleStore [("token", "tok"), ("token_expires", "2020-01-01T00:00:00Z"), ("key", "K")])
        sampleNow none none "gw1").store.field (sampleRedis.pfx ++ "gw1") "token_expires" =
      some "2030-01-01T00:00:00Z" ∧
    Time.Parse "2030-01-01T00:00:00Z" = some (Time.mk 64029052800 0 0) := by
  have hall := getToken_exchanges_and_persists sampleRedis
    (sampleStore [("token", "tok"), ("token_expires", "2020-01-01T00:00:00Z"), ("key", "K")])
    sampleNow "gw1"
    [("token", "tok"), ("token_expires", "2020-01-01T00:00:00Z"), ("key", "K")]
    "K" "newtok" (Time.mk 64029052800 0 0) sampleExchanger
    (by decide)
    (Or.inr (Or.inr ⟨"2020-01-01T00:00:00Z", ⟨63713433600, 0, 0⟩,
      by decide, by decide, by decide, by decide⟩))
    (by decide) (by decide) rfl (by decide)
  obtain ⟨h1, h2, h3, h4, h5, h6, h7⟩ := hall
  have htext : (if (Time.mk 64029052800 0 0).IsZero then ""
      else (Time.mk 64029052800 0 0).Format) = "2030-01-01T00:00:00Z" := by decide
  rw [htext] at h6
  obtain ⟨text, hf, _, hp⟩ :=
    h7 (by decide) (by decide) (by decide) (by decide) (by decide) (by decide)
  rw [h6] at hf
  have ht : "2030-01-01T00:00:00Z" = text := Option.some.inj hf
  rw [← ht] at hp
  exact ⟨h1, h2, h3, h4, h5, h6, hp⟩

end Auth
